import Mathlib

/-!
Verification of the chatgpt-ui-trimmer browser extension (content.js and
popup.js).  The development is a shallow embedding of the extension's
reconciliation engine: pure Lean functions mirror the JavaScript functions,
and DOM state is threaded explicitly through structures.

Modelling conventions:
* JavaScript numbers that the code only ever uses as integers are modelled
  as `Int`/`Nat` (the code never produces fractional values on these paths);
  the IEEE-double overflow of `parseInt` on astronomically long numerals is
  abstracted away, so parsed integers are exact.
* DOM elements are modelled by structures that carry exactly the fields the
  scripts read or write (classes, data attributes, child toggle buttons).
  Element parents, `document.body` and banner hosts, which are always
  present on a live page for elements returned by `querySelectorAll`, are
  assumed present, so the corresponding null guards in the source are
  dead branches of the model.
* The JavaScript `Map` objects in `COLLAPSE_STATE` are modelled as
  insertion-ordered association lists.
* Sibling positions of the toggle buttons are abstracted by an `adjacent`
  flag meaning "this button is the immediate previous sibling of the node
  it controls"; `host.insertBefore(button, node)` makes the inserted button
  adjacent and every other button non-adjacent, exactly as in a real DOM
  where a node has a single immediate previous sibling.
-/

/-! ## JavaScript value primitives

`clampKeepLastN` receives arbitrary storage/form values, converts them with
`String(value)` and parses with `Number.parseInt(_, 10)`.  We model the
value universe that can reach it. -/

/-- A JavaScript value as it can appear in `chrome.storage` or a form field. -/
inductive JSVal where
  | num (n : Int)
  | str (s : String)
  | bool (b : Bool)
  | null
  | undef
deriving DecidableEq, Repr

/-- JavaScript `String(value)` on the modelled value universe. -/
def jsToString : JSVal → String
  | .num n => toString n
  | .str s => s
  | .bool b => if b then "true" else "false"
  | .null => "null"
  | .undef => "undefined"

/-- Value of a list of decimal digit characters, most significant first. -/
def digitsVal (cs : List Char) : Nat :=
  cs.foldl (fun a c => a * 10 + (c.toNat - 48)) 0

/-- JavaScript `Number.parseInt(s, 10)`: skip leading whitespace, read an
optional sign, then the longest prefix of decimal digits; `none` models the
`NaN` result when no digit is found.  (Exact-integer abstraction of the
IEEE double result; see the header.) -/
def jsParseInt (s : String) : Option Int :=
  let cs := s.toList.dropWhile (fun c => c.isWhitespace)
  let signed : Int × List Char :=
    match cs with
    | '-' :: r => (-1, r)
    | '+' :: r => (1, r)
    | _ => (1, cs)
  let ds := signed.2.takeWhile (fun c => c.isDigit)
  if ds.isEmpty then none
  else some (signed.1 * (digitsVal ds : Int))

/-- JavaScript `Boolean(value)` (truthiness) on the modelled universe.
`NaN` does not arise because numbers are exact integers here. -/
def jsTruthy : JSVal → Bool
  | .num n => n != 0
  | .str s => !s.isEmpty
  | .bool b => b
  | .null => false
  | .undef => false

/-! ## Settings store adapter

`DEFAULT_SETTINGS` and `LIMITS` from content.js, and the normalization
performed by `clampKeepLastN` and `loadSettings`. -/

/-- `DEFAULT_SETTINGS.keepLastN` (content.js and popup.js agree on `6`). -/
def defaultKeepLastN : Int := 6

/-- `LIMITS.minKeepLastN`. -/
def minKeepLastN : Int := 1

/-- `LIMITS.maxKeepLastN`. -/
def maxKeepLastN : Int := 500

/-- `clampKeepLastN(value)` from content.js (identical in popup.js):
`Number.parseInt(String(value), 10)`, default on parse failure, otherwise
`Math.min(LIMITS.maxKeepLastN, Math.max(LIMITS.minKeepLastN, parsed))`. -/
def clampKeepLastN (value : JSVal) : Int :=
  match jsParseInt (jsToString value) with
  | none => defaultKeepLastN
  | some parsed => min maxKeepLastN (max minKeepLastN parsed)

/-- The normalized settings record produced by `loadSettings` /
`TRIMMER_APPLY` normalization.  `keepLastN` is kept as `Nat`; the clamp
guarantees it is in `[1, 500]`, hence nonnegative. -/
structure Settings where
  keepLastN : Nat
  minimalUi : Bool
  collapseOwnMessages : Bool
  collapseCodeBlocks : Bool
deriving DecidableEq, Repr

/-- `loadSettings()` re-normalizes whatever is in storage on every read.
Storage is modelled post-coercion (booleans are booleans, the count is a
number), so only the re-clamp of the numeric field is visible here. -/
def loadSettings (stored : Settings) : Settings :=
  { stored with keepLastN := (clampKeepLastN (.num stored.keepLastN)).toNat }

/-! ## Turn locator (`getConversationTurns`)

The locator queries the document with two selectors and filters by the
thread root.  Document queries are modelled by the result lists the
selectors would return, each element carrying the two facts the code then
tests: `threadRoot.contains(el)` and `el instanceof HTMLElement`. -/

/-- An element candidate returned by one of the turn selectors. -/
structure LocElem where
  isHtmlElement : Bool
  inThreadRoot : Bool
deriving DecidableEq, Repr

/-- The query results relevant to `getConversationTurns`. -/
structure LocatorDoc where
  primaryMatches : List LocElem
  fallbackMatches : List LocElem
  hasThreadRoot : Bool
deriving DecidableEq, Repr

/-- `getConversationTurns()` from content.js: primary selector, fallback
selector when the primary result is empty, thread-root containment filter
when a thread root exists, and a final `instanceof HTMLElement` filter. -/
def getConversationTurns (d : LocatorDoc) : List LocElem :=
  let turns := d.primaryMatches
  let turns := if turns.isEmpty then d.fallbackMatches else turns
  let turns := if d.hasThreadRoot then turns.filter (fun e => e.inThreadRoot) else turns
  turns.filter (fun e => e.isHtmlElement)

/-! ## DOM state model

Structures carrying the fields of the page that content.js reads/writes. -/

/-- A toggle button created by the extension, with the fields the script
sets on it.  `ariaExpanded` is `none` until the first render writes the
`aria-expanded` attribute.  `adjacent` abstracts the sibling position: it
holds exactly when the button is the immediate previous sibling of the
node it controls (see the header comment). -/
structure Toggle where
  key : String
  ariaExpanded : Option Bool
  label : String
  adjacent : Bool
deriving DecidableEq, Repr

/-- A freshly created toggle (`document.createElement("button")` with class
and key attribute set): no `aria-expanded`, empty text, not yet inserted. -/
def mkToggleButton (key : String) : Toggle :=
  { key := key, ariaExpanded := none, label := "", adjacent := false }

/-- The user-message container of a turn
(`[data-message-author-role="user"]`); `collapsed` models the
`cgpt-trimmer-collapsed-user-message` class. -/
structure UserMsg where
  collapsed : Bool
deriving DecidableEq, Repr

/-- A `<pre>` code block together with the code-toggle buttons living in
its host container (`preElement.parentElement`); `collapsed` models the
`cgpt-trimmer-collapsed-code-block` class.  Each block's host is its own
container in the host page, so the toggles are stored per block. -/
structure CodeBlock where
  collapsed : Bool
  toggles : List Toggle
deriving DecidableEq, Repr

/-- A conversation-turn `<article>`.  The three attribute fields feed
`getTurnKey`; `hiddenClass` models the `cgpt-trimmer-hidden` class and
`hiddenAttr` the `data-cgpt-trimmer-hidden="1"` attribute; `msgToggles`
are the message-toggle buttons in the turn subtree in document order. -/
structure Turn where
  testId : Option String
  turnId : Option String
  genericTurn : Option String
  hiddenClass : Bool
  hiddenAttr : Bool
  userMsg : Option UserMsg
  msgToggles : List Toggle
  codeBlocks : List CodeBlock
deriving DecidableEq, Repr

/-- JavaScript truthiness of a `getAttribute` result: `null` and the empty
string are both falsy. -/
def truthyAttr : Option String → Bool
  | some s => !s.isEmpty
  | none => false

/-- `getTurnKey(turn, index)` from content.js: `data-testid`, then
`data-turn-id`, then `data-turn`, then the positional fallback. -/
def getTurnKey (t : Turn) (index : Nat) : String :=
  if truthyAttr t.testId then t.testId.getD ""
  else if truthyAttr t.turnId then "turn-id:" ++ t.turnId.getD ""
  else if truthyAttr t.genericTurn then "turn:" ++ t.genericTurn.getD ""
  else "turn-index:" ++ toString index

/-! ## Collapse state map

`COLLAPSE_STATE.messages` / `COLLAPSE_STATE.codeBlocks` are JavaScript
`Map`s; modelled as insertion-ordered association lists.  `mget`/`mset`
mirror `Map.get` / `Map.set` (set replaces in place when the key exists,
appends otherwise). -/

/-- One of the two collapse-state maps. -/
abbrev StateMap := List (String × Bool)

/-- `Map.get(k)`, `undefined` as `none`. -/
def mget : StateMap → String → Option Bool
  | [], _ => none
  | p :: rest, k => if p.1 == k then some p.2 else mget rest k

/-- `Map.set(k, v)`. -/
def mset : StateMap → String → Bool → StateMap
  | [], k, v => [(k, v)]
  | p :: rest, k, v => if p.1 == k then (k, v) :: rest else p :: mset rest k v

/-- Whether the map already has an entry for the key (`Map.has`). -/
def mhas (m : StateMap) (k : String) : Bool :=
  (mget m k).isSome

/-! ## Collapse-toggle manager

`findChildButtonByKey`, `ensureMessageToggle`, `ensureCodeToggle` and the
two cleanup functions.  The find/create/reposition/render steps are shared
between the message and code variants exactly as their source bodies are
line-for-line parallel; only the labels and target structures differ. -/

/-- The predicate of `findChildButtonByKey`: class match is encoded by
which toggle list is searched, so only the key attribute is compared. -/
def keyMatches (key : String) (b : Toggle) : Bool :=
  b.key == key

/-- Rewrites the first list entry satisfying `p`, keeping its position
(an in-place update of a DOM node found by a subtree query). -/
def updateFirst (p : Toggle → Bool) (f : Toggle → Toggle) : List Toggle → List Toggle
  | [] => []
  | b :: rest => if p b then f b :: rest else b :: updateFirst p f rest

/-- The find-or-create-then-reposition steps of `ensureMessageToggle` /
`ensureCodeToggle`: reuse the first button carrying the key if present,
otherwise create one; then, unless the button is already the immediate
previous sibling of its node, `host.insertBefore(button, node)` — which
makes it adjacent and every other button non-adjacent. -/
def ensureButtonPlaced (key : String) (toggles : List Toggle) : List Toggle :=
  if toggles.any (keyMatches key) then
    if ((toggles.find? (keyMatches key)).map (fun b => b.adjacent)).getD false then
      toggles
    else
      updateFirst (keyMatches key) (fun b => { b with adjacent := true })
        (toggles.map (fun b => { b with adjacent := false }))
  else
    toggles.map (fun b => { b with adjacent := false }) ++
      [{ mkToggleButton key with adjacent := true }]

/-- The button half of `setMessageCollapsed` / `setCodeCollapsed`:
`aria-expanded = String(!collapsed)` and the label text. -/
def renderToggle (showLabel hideLabel : String) (collapsed : Bool) (b : Toggle) : Toggle :=
  { b with ariaExpanded := some (!collapsed),
           label := if collapsed then showLabel else hideLabel }

/-- Common body of `ensureMessageToggle` / `ensureCodeToggle` on the toggle
list and state map: place the button, lazily default the state entry to
`collapsed = true`, then render the button from the stored state
(`COLLAPSE_STATE.….get(key) === true`).  Returns the new list, the new map
and the collapsed flag applied to the controlled node. -/
def ensureToggle (showLabel hideLabel key : String) (m : StateMap) (toggles : List Toggle) :
    List Toggle × StateMap × Bool :=
  let placed := ensureButtonPlaced key toggles
  let m' := if mhas m key then m else mset m key true
  let collapsed := mget m' key == some true
  (updateFirst (keyMatches key) (renderToggle showLabel hideLabel collapsed) placed,
   m', collapsed)

/-- `LABELS.showMyMessage`. -/
def showMyMessageLabel : String := "Show my message"

/-- `LABELS.hideMyMessage`. -/
def hideMyMessageLabel : String := "Hide my message"

/-- `LABELS.showCode`. -/
def showCodeLabel : String := "Show code"

/-- `LABELS.hideCode`. -/
def hideCodeLabel : String := "Hide code"

/-- `ensureMessageToggle(turn, messageNode, messageKey)`: the shared ensure
body on the turn's message toggles, then `setMessageCollapsed` toggles the
collapsed class on the message node. -/
def ensureMessageToggle (t : Turn) (msg : UserMsg) (messageKey : String) (m : StateMap) :
    Turn × StateMap :=
  let r := ensureToggle showMyMessageLabel hideMyMessageLabel messageKey m t.msgToggles
  ({ t with userMsg := some { msg with collapsed := r.2.2 }, msgToggles := r.1 }, r.2.1)

/-- `ensureCodeToggle(preElement, codeKey)`: the shared ensure body on the
block's host toggles, then `setCodeCollapsed` toggles the collapsed class
on the `<pre>`.  (The `!host` guard of the source is dead here: a `<pre>`
found inside a turn always has a parent element.) -/
def ensureCodeToggle (cb : CodeBlock) (codeKey : String) (m : StateMap) :
    CodeBlock × StateMap :=
  let r := ensureToggle showCodeLabel hideCodeLabel codeKey m cb.toggles
  ({ collapsed := r.2.2, toggles := r.1 }, r.2.1)

/-- `cleanupMessageCollapsers()`: remove every message-toggle button and
strip the collapsed class from every user-message node. -/
def cleanupMessageCollapsers (turns : List Turn) : List Turn :=
  turns.map fun t =>
    { t with msgToggles := [],
             userMsg := t.userMsg.map (fun msg => { msg with collapsed := false }) }

/-- `cleanupCodeCollapsers()`: remove every code-toggle button and strip
the collapsed class from every code block. -/
def cleanupCodeCollapsers (turns : List Turn) : List Turn :=
  turns.map fun t =>
    { t with codeBlocks := t.codeBlocks.map (fun cb => { cb with collapsed := false, toggles := [] }) }

/-- The message key derived for a turn at a given scan index
(`getTurnKey(turn, index) + "::user-message"`). -/
def messageKeyOf (t : Turn) (index : Nat) : String :=
  getTurnKey t index ++ "::user-message"

/-- The code key derived for a block ordinal inside a turn
(`turnKey + "::code-block:" + codeIndex`). -/
def codeKeyOf (t : Turn) (index codeIndex : Nat) : String :=
  getTurnKey t index ++ "::code-block:" ++ toString codeIndex

/-- The enabled loop of `applyMessageCollapsers`: walk the turns with their
indices, skip turns without a user-message node, ensure a toggle for the
others. -/
def applyMessageCollapsersGo : Nat → List Turn → StateMap → List Turn × StateMap
  | _, [], m => ([], m)
  | index, t :: rest, m =>
    match t.userMsg with
    | none =>
      let r := applyMessageCollapsersGo (index + 1) rest m
      (t :: r.1, r.2)
    | some msg =>
      let e := ensureMessageToggle t msg (messageKeyOf t index) m
      let r := applyMessageCollapsersGo (index + 1) rest e.2
      (e.1 :: r.1, r.2)

/-- `applyMessageCollapsers(turns, enabled)`. -/
def applyMessageCollapsers (turns : List Turn) (enabled : Bool) (m : StateMap) :
    List Turn × StateMap :=
  if !enabled then (cleanupMessageCollapsers turns, m)
  else applyMessageCollapsersGo 0 turns m

/-- The inner loop of `applyCodeCollapsers`: zero-based `codeIndex` over
the `<pre>` blocks of one turn.  (All queried blocks are `HTMLElement`s on
a real page, so the `instanceof` skip is a dead branch of the model.) -/
def applyCodeCollapsersBlocks (t : Turn) (index : Nat) :
    Nat → List CodeBlock → StateMap → List CodeBlock × StateMap
  | _, [], m => ([], m)
  | codeIndex, cb :: rest, m =>
    let e := ensureCodeToggle cb (codeKeyOf t index codeIndex) m
    let r := applyCodeCollapsersBlocks t index (codeIndex + 1) rest e.2
    (e.1 :: r.1, r.2)

/-- The enabled outer loop of `applyCodeCollapsers` over the turns. -/
def applyCodeCollapsersGo : Nat → List Turn → StateMap → List Turn × StateMap
  | _, [], m => ([], m)
  | index, t :: rest, m =>
    let e := applyCodeCollapsersBlocks t index 0 t.codeBlocks m
    let r := applyCodeCollapsersGo (index + 1) rest e.2
    ({ t with codeBlocks := e.1 } :: r.1, r.2)

/-- `applyCodeCollapsers(turns, enabled)`. -/
def applyCodeCollapsers (turns : List Turn) (enabled : Bool) (m : StateMap) :
    List Turn × StateMap :=
  if !enabled then (cleanupCodeCollapsers turns, m)
  else applyCodeCollapsersGo 0 turns m

/-! ## Visibility reconciler -/

/-- `setTurnHidden(turn, hidden)`: `classList.toggle(class, hidden)` plus
set/remove of the `data-cgpt-trimmer-hidden` attribute. -/
def setTurnHidden (t : Turn) (hidden : Bool) : Turn :=
  { t with hiddenClass := hidden, hiddenAttr := hidden }

/-- The hide/show loop of `applyTrimming`: turn `i` is hidden exactly when
`i < hiddenCount`. -/
def markTurns (hiddenCount : Nat) : Nat → List Turn → List Turn
  | _, [] => []
  | index, t :: rest =>
    setTurnHidden t (decide (index < hiddenCount)) :: markTurns hiddenCount (index + 1) rest

/-- The literal banner text set by `updateBanner`. -/
def bannerText (hiddenCount totalCount keepLastN : Nat) : String :=
  toString hiddenCount ++ " older messages hidden. Showing the last " ++
    toString keepLastN ++ " turns (" ++ toString totalCount ++ " total)."

/-- `updateBanner(hiddenCount, totalCount, keepLastN, turns)`: remove the
banner when nothing is hidden, otherwise create-or-reuse the singleton
banner node and set its text.  The banner is id-keyed in the document, so
an `Option` holds it; hosts are always available (see the header). -/
def updateBanner (hiddenCount totalCount keepLastN : Nat) (_banner : Option String) :
    Option String :=
  if hiddenCount ≤ 0 then none
  else some (bannerText hiddenCount totalCount keepLastN)

/-- The page-resident state touched by a reconciliation pass: the located
turn list, the banner, the two collapse-state maps and the minimal-UI
marker class on the document element. -/
structure EngineState where
  turns : List Turn
  banner : Option String
  messages : StateMap
  codeBlocksMap : StateMap
  minimalUiClass : Bool
deriving DecidableEq, Repr

/-- The result object of `applyTrimming`. -/
structure ApplyResult where
  hiddenCount : Nat
  totalCount : Nat
  keepLastN : Nat
deriving DecidableEq, Repr

/-- `applyTrimming()` (one reconciliation pass), with the settings already
read back from storage (`loadSettings`).  `ensureStyleTag` installs a
static stylesheet and is stateless here.  `Math.max(0, length - keepLastN)`
is truncated `Nat` subtraction. -/
def applyTrimming (settings : Settings) (st : EngineState) : EngineState × ApplyResult :=
  let st := { st with minimalUiClass := settings.minimalUi }
  if st.turns.isEmpty then
    ({ st with banner := none },
     { hiddenCount := 0, totalCount := 0, keepLastN := settings.keepLastN })
  else
    let totalCount := st.turns.length
    let hiddenCount := totalCount - settings.keepLastN
    let turns := markTurns hiddenCount 0 st.turns
    let pm := applyMessageCollapsers turns settings.collapseOwnMessages st.messages
    let pc := applyCodeCollapsers pm.1 settings.collapseCodeBlocks st.codeBlocksMap
    ({ turns := pc.1,
       banner := updateBanner hiddenCount totalCount settings.keepLastN st.banner,
       messages := pm.2,
       codeBlocksMap := pc.2,
       minimalUiClass := settings.minimalUi },
     { hiddenCount := hiddenCount, totalCount := totalCount, keepLastN := settings.keepLastN })

/-- `showAllTurns()`: unhide every located turn and remove the banner. -/
def showAllTurns (st : EngineState) : EngineState :=
  { st with turns := st.turns.map (fun t => setTurnHidden t false), banner := none }

/-! ## Command surface (`chrome.runtime.onMessage` listener) -/

/-- A request message from popup.js, tagged by its `type` string. -/
inductive Request where
  | apply (keepLastN minimalUi collapseOwnMessages collapseCodeBlocks : JSVal)
  | showAll
  | status
  | unknown
deriving DecidableEq, Repr

/-- A response object passed to `sendResponse`.  Each constructor is one
literal object shape the listener builds. -/
inductive Reply where
  | applyOk (hiddenCount totalCount keepLastN : Nat)
  | applyFailed (error : String)
  | showAllOk (hiddenCount : Nat)
  | statusOk (totalCount hiddenCount : Nat)
deriving DecidableEq, Repr

/-- Environmental outcome of the `saveSettings().then(applyTrimming)`
promise chain of the `TRIMMER_APPLY` branch.  The engine's own model
functions are total; a rejection can only be injected by the platform
(storage failure, a DOM exception inside the pass), which this value
abstracts.  `chainOk` is the normal path. -/
inductive ChainOutcome where
  | chainOk
  | persistFailed (error : String)
  | applyFailed (error : String)
deriving DecidableEq, Repr

/-- Normalization of the `TRIMMER_APPLY` payload into `nextSettings`:
`clampKeepLastN` on the count, `Boolean(...)` on the three flags. -/
def normalizeApplyPayload (keepLastN minimalUi collapseOwnMessages collapseCodeBlocks : JSVal) :
    Settings :=
  { keepLastN := (clampKeepLastN keepLastN).toNat,
    minimalUi := jsTruthy minimalUi,
    collapseOwnMessages := jsTruthy collapseOwnMessages,
    collapseCodeBlocks := jsTruthy collapseCodeBlocks }

/-- The `chrome.runtime.onMessage` listener.  Returns the stored settings,
the page state and the reply passed to `sendResponse` (`none` when the
listener returns without responding, as it does for unknown messages).
On `persistFailed` the `.catch` replies before the pass runs; on
`applyFailed` the settings were already persisted when the pass rejected.
In every failure case the rejection is converted into an
`{ok:false, error:String(error)}` response instead of escaping. -/
def onMessage (req : Request) (stored : Settings) (st : EngineState)
    (outcome : ChainOutcome) : Settings × EngineState × Option Reply :=
  match req with
  | .unknown => (stored, st, none)
  | .apply keepLastN minimalUi collapseOwnMessages collapseCodeBlocks =>
    let nextSettings := normalizeApplyPayload keepLastN minimalUi collapseOwnMessages collapseCodeBlocks
    match outcome with
    | .persistFailed e => (stored, st, some (.applyFailed e))
    | .applyFailed e => (nextSettings, st, some (.applyFailed e))
    | .chainOk =>
      let r := applyTrimming (loadSettings nextSettings) st
      (nextSettings, r.1, some (.applyOk r.2.hiddenCount r.2.totalCount r.2.keepLastN))
  | .showAll => (stored, showAllTurns st, some (.showAllOk 0))
  | .status =>
    let turns := st.turns
    let hiddenCount := (turns.filter (fun t => t.hiddenClass)).length
    (stored, st, some (.statusOk turns.length hiddenCount))

/-! ## Escape-hatch click listener (`attachGlobalListeners`)

The capturing document-level click listener.  A click event is modelled by
the facts the listener extracts from `event.target`: whether the target is
an `Element`, whether `target.closest('button.…message-toggle')` found the
toggle itself, and which turn (by index in the located list)
`target.closest("article")` resolves to. -/

/-- The observable shape of one click event. -/
structure Click where
  targetIsElement : Bool
  insideMessageToggle : Bool
  closestArticle : Option Nat
deriving DecidableEq, Repr

/-- The body of the capturing click listener: when a click lands inside a
turn whose user message is collapsed, away from the toggle itself, store
`collapsed = false` for the toggle's key (when the key attribute is
truthy) and force-expand the message via `setMessageCollapsed`.  Because
the listener is registered with `capture = true`, this runs on the state
as it is before any host-page click handler. -/
def handleDocumentClick (turns : List Turn) (m : StateMap) (c : Click) :
    List Turn × StateMap :=
  if !c.targetIsElement then (turns, m)
  else if c.insideMessageToggle then (turns, m)
  else
    match c.closestArticle with
    | none => (turns, m)
    | some i =>
      match turns[i]? with
      | none => (turns, m)
      | some turn =>
        match turn.userMsg with
        | none => (turns, m)
        | some msg =>
          if !msg.collapsed then (turns, m)
          else
            match turn.msgToggles with
            | [] => (turns, m)
            | b :: rest =>
              let m' := if !b.key.isEmpty then mset m b.key false else m
              let turn' := { turn with
                userMsg := some { msg with collapsed := false },
                msgToggles := renderToggle showMyMessageLabel hideMyMessageLabel false b :: rest }
              (turns.set i turn', m')

/-! ## Concrete sample inputs (used to exercise the theorems) -/

/-- Sample settings: the defaults of `DEFAULT_SETTINGS`. -/
def demoSettings : Settings :=
  { keepLastN := 6, minimalUi := true, collapseOwnMessages := true, collapseCodeBlocks := true }

/-- A sample conversation turn as the primary selector would return it. -/
def demoTurn (i : Nat) : Turn :=
  { testId := some ("conversation-turn-" ++ toString i), turnId := none, genericTurn := none,
    hiddenClass := false, hiddenAttr := false,
    userMsg := some { collapsed := false }, msgToggles := [],
    codeBlocks := [{ collapsed := false, toggles := [] }] }

/-- A sample page state with ten located turns (the spec's `T = 10` scenario). -/
def demoState : EngineState :=
  { turns := (List.range 10).map demoTurn, banner := none, messages := [],
    codeBlocksMap := [], minimalUiClass := false }

/-- A turn whose user message is collapsed and carries its rendered toggle. -/
def demoCollapsedTurn : Turn :=
  { testId := some "conversation-turn-0", turnId := none, genericTurn := none,
    hiddenClass := false, hiddenAttr := false,
    userMsg := some { collapsed := true },
    msgToggles := [{ key := "conversation-turn-0::user-message", ariaExpanded := some false,
                     label := "Show my message", adjacent := true }],
    codeBlocks := [] }

/-- A click inside `demoCollapsedTurn`, away from its toggle. -/
def demoClick : Click :=
  { targetIsElement := true, insideMessageToggle := false, closestArticle := some 0 }

/-- A sample locator view of the document. -/
def demoLocatorDoc : LocatorDoc :=
  { primaryMatches := [{ isHtmlElement := true, inThreadRoot := true }],
    fallbackMatches := [{ isHtmlElement := true, inThreadRoot := false }],
    hasThreadRoot := true }

/-! ## Invariant predicates used by the proofs -/

/-- Map extension: every entry of `m` is still present, with the same
value, in `m'`.  A reconciliation pass only ever grows the state maps. -/
def mpres (m m' : StateMap) : Prop :=
  ∀ k v, mget m k = some v → mget m' k = some v

/-- A turn list is message-settled for scan offset `index` and map `M`:
every turn with a user message carries an adjacent, fully rendered toggle
for its message key, the map stores its collapsed flag, and the message
node shows exactly that flag.  This is the postcondition of the enabled
message-collapser stage and makes a second run a no-op. -/
def MsgSettled (index : Nat) (turns : List Turn) (M : StateMap) : Prop :=
  ∀ j t, turns[j]? = some t →
    t.userMsg = none ∨
    ∃ v b, mget M (messageKeyOf t (index + j)) = some v ∧
      t.userMsg = some { collapsed := v } ∧
      t.msgToggles.find? (keyMatches (messageKeyOf t (index + j))) = some b ∧
      b.adjacent = true ∧
      renderToggle showMyMessageLabel hideMyMessageLabel v b = b

/-- A code-block list is settled for its turn's key context: every block
carries an adjacent rendered toggle for its ordinal key, the map stores
its collapsed flag, and the block shows that flag. -/
def BlocksSettled (t : Turn) (index start : Nat) (cbs : List CodeBlock) (M : StateMap) : Prop :=
  ∀ j cb, cbs[j]? = some cb →
    ∃ v b, mget M (codeKeyOf t index (start + j)) = some v ∧
      cb.collapsed = v ∧
      cb.toggles.find? (keyMatches (codeKeyOf t index (start + j))) = some b ∧
      b.adjacent = true ∧
      renderToggle showCodeLabel hideCodeLabel v b = b

/-- A turn list is code-settled: each turn's block list is settled under
that turn's own key context. -/
def CodeSettled (index : Nat) (turns : List Turn) (M : StateMap) : Prop :=
  ∀ j t, turns[j]? = some t → BlocksSettled t (index + j) 0 t.codeBlocks M

/-- All message-collapse UI is cleared (the post-state of
`cleanupMessageCollapsers`): no message toggles, no collapsed class. -/
def MsgCleared (turns : List Turn) : Prop :=
  ∀ t ∈ turns, t.msgToggles = [] ∧ ∀ msg, t.userMsg = some msg → msg.collapsed = false

/-- All code-collapse UI is cleared (the post-state of
`cleanupCodeCollapsers`). -/
def CodeCleared (turns : List Turn) : Prop :=
  ∀ t ∈ turns, ∀ cb ∈ t.codeBlocks, cb.toggles = [] ∧ cb.collapsed = false

/-- The hidden markers of a turn list, in order (class bit, attribute
bit).  The collapser stages never touch these. -/
def hiddenMarks (turns : List Turn) : List (Bool × Bool) :=
  turns.map (fun t => (t.hiddenClass, t.hiddenAttr))

/-! ## Lemmas: state map -/

theorem mget_mset_self (m : StateMap) (k : String) (v : Bool) :
    mget (mset m k v) k = some v := by
  induction m with
  | nil => simp [mset, mget]
  | cons p rest ih =>
    by_cases h : p.1 = k
    · simp [mset, mget, h]
    · simp only [mset, mget, beq_iff_eq, h, if_false]
      exact ih

theorem mget_mset_ne (m : StateMap) (k k' : String) (v : Bool) (h : k' ≠ k) :
    mget (mset m k v) k' = mget m k' := by
  induction m with
  | nil => simp [mset, mget, Ne.symm h]
  | cons p rest ih =>
    by_cases hp : p.1 = k
    · subst hp
      simp [mset, mget, Ne.symm h]
    · simp only [mset, mget, beq_iff_eq, hp, if_false]
      by_cases hp' : p.1 = k'
      · simp [hp']
      · simp [hp', ih]

theorem mpres_refl (m : StateMap) : mpres m m := fun _ _ h => h

theorem mpres_trans {m₁ m₂ m₃ : StateMap} (h₁ : mpres m₁ m₂) (h₂ : mpres m₂ m₃) :
    mpres m₁ m₃ := fun k v h => h₂ k v (h₁ k v h)

theorem mpres_mset_absent {m : StateMap} {k : String} (h : mget m k = none) (v : Bool) :
    mpres m (mset m k v) := by
  intro k' v' h'
  have hne : k' ≠ k := by
    intro he
    rw [he, h] at h'
    exact Option.noConfusion h'
  rw [mget_mset_ne m k k' v hne]
  exact h'

/-! ## Lemmas: toggle placement and rendering -/

theorem keyMatches_key {key : String} {b : Toggle} (h : keyMatches key b = true) :
    b.key = key := by
  simpa [keyMatches] using h

theorem renderToggle_key (sl hl : String) (c : Bool) (b : Toggle) :
    (renderToggle sl hl c b).key = b.key := rfl

theorem renderToggle_adjacent (sl hl : String) (c : Bool) (b : Toggle) :
    (renderToggle sl hl c b).adjacent = b.adjacent := rfl

theorem renderToggle_idem (sl hl : String) (c : Bool) (b : Toggle) :
    renderToggle sl hl c (renderToggle sl hl c b) = renderToggle sl hl c b := rfl

theorem updateFirst_eq_self {p : Toggle → Bool} {f : Toggle → Toggle} :
    ∀ {l : List Toggle} {b : Toggle}, l.find? p = some b → f b = b → updateFirst p f l = l
  | [], b, h, _ => by simp [List.find?] at h
  | x :: rest, b, h, hf => by
    by_cases hx : p x = true
    · rw [List.find?_cons_of_pos _ hx] at h
      obtain rfl : x = b := by injection h
      simp [updateFirst, hx, hf]
    · rw [List.find?_cons_of_neg _ (by simpa using hx)] at h
      simp only [updateFirst, hx, if_false, Bool.false_eq_true]
      rw [updateFirst_eq_self h hf]

theorem find?_updateFirst {p : Toggle → Bool} {f : Toggle → Toggle}
    (hpf : ∀ b, p b = true → p (f b) = true) :
    ∀ l : List Toggle, (updateFirst p f l).find? p = (l.find? p).map f
  | [] => by simp [updateFirst]
  | x :: rest => by
    by_cases hx : p x = true
    · simp [updateFirst, hx, List.find?_cons_of_pos _ (hpf x hx), List.find?_cons_of_pos _ hx]
    · have hx' : p x = false := by simpa using hx
      simp only [updateFirst, hx, if_false, Bool.false_eq_true]
      rw [List.find?_cons_of_neg _ (by simp [hx']), List.find?_cons_of_neg _ (by simp [hx']),
        find?_updateFirst hpf rest]

theorem find?_clearAdjacent (key : String) (l : List Toggle) :
    (l.map (fun b => { b with adjacent := false })).find? (keyMatches key) =
      (l.find? (keyMatches key)).map (fun b => { b with adjacent := false }) := by
  rw [List.find?_map]
  rfl

theorem ensureButtonPlaced_find (key : String) (l : List Toggle) :
    ∃ b, (ensureButtonPlaced key l).find? (keyMatches key) = some b ∧
      b.adjacent = true ∧ b.key = key := by
  unfold ensureButtonPlaced
  by_cases hany : l.any (keyMatches key) = true
  · obtain ⟨b₀, hfind⟩ : ∃ b₀, l.find? (keyMatches key) = some b₀ := by
      rcases hfound : l.find? (keyMatches key) with _ | b₀
      · rw [List.any_eq_true] at hany
        obtain ⟨x, hx, hpx⟩ := hany
        have := List.find?_isSome.mpr ⟨x, hx, hpx⟩
        rw [hfound] at this
        simp at this
      · exact ⟨b₀, rfl⟩
    have hb₀key : b₀.key = key := keyMatches_key (List.find?_some hfind)
    by_cases hadj : b₀.adjacent = true
    · refine ⟨b₀, ?_, hadj, hb₀key⟩
      simp [hany, hfind, hadj]
    · have hadj' : b₀.adjacent = false := by simpa using hadj
      refine ⟨{ b₀ with adjacent := true }, ?_, rfl, hb₀key⟩
      have hmono : ∀ b : Toggle, keyMatches key b = true →
          keyMatches key ({ b with adjacent := true }) = true := by
        intro b hb; simpa [keyMatches] using hb
      simp only [hany, if_true, hfind, hadj', Option.map_some', Option.getD_some,
        Bool.false_eq_true, if_false]
      rw [find?_updateFirst hmono, find?_clearAdjacent, hfind]
      rfl
  · have hnone : l.find? (keyMatches key) = none := by
      rcases hfound : l.find? (keyMatches key) with _ | b₀
      · rfl
      · exact absurd (List.any_eq_true.mpr ⟨b₀, List.mem_of_find?_eq_some hfound,
          List.find?_some hfound⟩) hany
    refine ⟨{ mkToggleButton key with adjacent := true }, ?_, rfl, rfl⟩
    simp only [hany, if_false, Bool.false_eq_true]
    rw [List.find?_append, find?_clearAdjacent, hnone]
    simp [keyMatches, mkToggleButton]

/-! ## Lemmas: the shared ensure body -/

theorem ensureToggle_map_none (sl hl key : String) (m : StateMap) (l : List Toggle)
    (h : mget m key = none) :
    (ensureToggle sl hl key m l).2.1 = mset m key true ∧
      (ensureToggle sl hl key m l).2.2 = true := by
  unfold ensureToggle
  simp [mhas, h, mget_mset_self]

theorem ensureToggle_map_some (sl hl key : String) (m : StateMap) (l : List Toggle)
    (v : Bool) (h : mget m key = some v) :
    (ensureToggle sl hl key m l).2.1 = m ∧ (ensureToggle sl hl key m l).2.2 = v := by
  unfold ensureToggle
  cases v <;> simp [mhas, h]

theorem ensureToggle_mget_key (sl hl key : String) (m : StateMap) (l : List Toggle) :
    mget (ensureToggle sl hl key m l).2.1 key = some (ensureToggle sl hl key m l).2.2 := by
  rcases h : mget m key with _ | v
  · obtain ⟨h1, h2⟩ := ensureToggle_map_none sl hl key m l h
    rw [h1, h2, mget_mset_self]
  · obtain ⟨h1, h2⟩ := ensureToggle_map_some sl hl key m l v h
    rw [h1, h2, h]

theorem ensureToggle_mpres (sl hl key : String) (m : StateMap) (l : List Toggle) :
    mpres m (ensureToggle sl hl key m l).2.1 := by
  rcases h : mget m key with _ | v
  · rw [(ensureToggle_map_none sl hl key m l h).1]
    exact mpres_mset_absent h true
  · rw [(ensureToggle_map_some sl hl key m l v h).1]
    exact mpres_refl m

theorem settled_after_render (sl hl key : String) (c : Bool) (l : List Toggle) :
    ∃ b, (updateFirst (keyMatches key) (renderToggle sl hl c)
        (ensureButtonPlaced key l)).find? (keyMatches key) = some b ∧
      b.adjacent = true ∧ renderToggle sl hl c b = b := by
  obtain ⟨b₀, hfind, hadj, hkey⟩ := ensureButtonPlaced_find key l
  refine ⟨renderToggle sl hl c b₀, ?_, ?_, ?_⟩
  · rw [find?_updateFirst (fun b hb => by simpa [keyMatches] using hb), hfind]
    rfl
  · rw [renderToggle_adjacent]
    exact hadj
  · exact renderToggle_idem sl hl c b₀

theorem ensureToggle_settled (sl hl key : String) (m : StateMap) (l : List Toggle) :
    ∃ b, (ensureToggle sl hl key m l).1.find? (keyMatches key) = some b ∧
      b.adjacent = true ∧ renderToggle sl hl (ensureToggle sl hl key m l).2.2 b = b :=
  settled_after_render sl hl key ((ensureToggle sl hl key m l).2.2) l

theorem ensureToggle_fix (sl hl key : String) (m : StateMap) (l : List Toggle)
    (v : Bool) (b : Toggle) (hm : mget m key = some v)
    (hfind : l.find? (keyMatches key) = some b) (hadj : b.adjacent = true)
    (hrender : renderToggle sl hl v b = b) :
    ensureToggle sl hl key m l = (l, m, v) := by
  have hplaced : ensureButtonPlaced key l = l := by
    have hany : l.any (keyMatches key) = true :=
      List.any_eq_true.mpr ⟨b, List.mem_of_find?_eq_some hfind, List.find?_some hfind⟩
    unfold ensureButtonPlaced
    simp [hany, hfind, hadj]
  have hc : (some v == some true) = v := by cases v <;> rfl
  unfold ensureToggle
  simp only [mhas, hm, Option.isSome_some, if_true, hplaced, hc]
  rw [updateFirst_eq_self hfind hrender]

/-! ## Lemmas: structure eta helpers -/

theorem Turn_eta_msg {u : Option UserMsg} {tg : List Toggle} (t : Turn)
    (hu : t.userMsg = u) (htg : t.msgToggles = tg) :
    ({ t with userMsg := u, msgToggles := tg } : Turn) = t := by
  obtain ⟨a1, a2, a3, a4, a5, a6, a7, a8⟩ := t
  cases hu
  cases htg
  rfl

theorem Turn_eta_code {cbs : List CodeBlock} (t : Turn) (hc : t.codeBlocks = cbs) :
    ({ t with codeBlocks := cbs } : Turn) = t := by
  obtain ⟨a1, a2, a3, a4, a5, a6, a7, a8⟩ := t
  cases hc
  rfl

theorem Turn_eta_hidden {b : Bool} (t : Turn) (h1 : t.hiddenClass = b) (h2 : t.hiddenAttr = b) :
    setTurnHidden t b = t := by
  obtain ⟨a1, a2, a3, a4, a5, a6, a7, a8⟩ := t
  cases h1
  cases h2
  rfl

theorem CodeBlock_eta {v : Bool} (cb : CodeBlock) (hc : cb.collapsed = v) :
    ({ collapsed := v, toggles := cb.toggles } : CodeBlock) = cb := by
  obtain ⟨c1, c2⟩ := cb
  cases hc
  rfl

theorem EngineState_eta_banner (st : EngineState) (hb : st.banner = none) :
    ({ st with banner := none } : EngineState) = st := by
  obtain ⟨e1, e2, e3, e4, e5⟩ := st
  cases hb
  rfl

/-! ## Lemmas: ensureMessageToggle / ensureCodeToggle -/

theorem ensureMessageToggle_frame (t : Turn) (msg : UserMsg) (key : String) (m : StateMap) :
    (ensureMessageToggle t msg key m).1.testId = t.testId ∧
    (ensureMessageToggle t msg key m).1.turnId = t.turnId ∧
    (ensureMessageToggle t msg key m).1.genericTurn = t.genericTurn ∧
    (ensureMessageToggle t msg key m).1.hiddenClass = t.hiddenClass ∧
    (ensureMessageToggle t msg key m).1.hiddenAttr = t.hiddenAttr ∧
    (ensureMessageToggle t msg key m).1.codeBlocks = t.codeBlocks :=
  ⟨rfl, rfl, rfl, rfl, rfl, rfl⟩

theorem ensureMessageToggle_post (t : Turn) (msg : UserMsg) (key : String) (m : StateMap) :
    ∃ v b, mget (ensureMessageToggle t msg key m).2 key = some v ∧
      (ensureMessageToggle t msg key m).1.userMsg = some { collapsed := v } ∧
      (ensureMessageToggle t msg key m).1.msgToggles.find? (keyMatches key) = some b ∧
      b.adjacent = true ∧ renderToggle showMyMessageLabel hideMyMessageLabel v b = b := by
  obtain ⟨b, hf, ha, hr⟩ :=
    ensureToggle_settled showMyMessageLabel hideMyMessageLabel key m t.msgToggles
  exact ⟨(ensureToggle showMyMessageLabel hideMyMessageLabel key m t.msgToggles).2.2, b,
    ensureToggle_mget_key showMyMessageLabel hideMyMessageLabel key m t.msgToggles,
    rfl, hf, ha, hr⟩

theorem ensureMessageToggle_mpres (t : Turn) (msg : UserMsg) (key : String) (m : StateMap) :
    mpres m (ensureMessageToggle t msg key m).2 :=
  ensureToggle_mpres showMyMessageLabel hideMyMessageLabel key m t.msgToggles

theorem ensureMessageToggle_fix (t : Turn) (msg : UserMsg) (key : String) (M : StateMap)
    (v : Bool) (b : Toggle)
    (hum : t.userMsg = some msg) (hmsg : msg = { collapsed := v })
    (hm : mget M key = some v)
    (hfind : t.msgToggles.find? (keyMatches key) = some b)
    (hadj : b.adjacent = true)
    (hrender : renderToggle showMyMessageLabel hideMyMessageLabel v b = b) :
    ensureMessageToggle t msg key M = (t, M) := by
  have he := ensureToggle_fix showMyMessageLabel hideMyMessageLabel key M t.msgToggles v b
    hm hfind hadj hrender
  subst hmsg
  unfold ensureMessageToggle
  rw [he]
  exact congrArg (fun x => (x, M)) (Turn_eta_msg t hum rfl)

theorem ensureCodeToggle_post (cb : CodeBlock) (key : String) (m : StateMap) :
    ∃ v b, mget (ensureCodeToggle cb key m).2 key = some v ∧
      (ensureCodeToggle cb key m).1.collapsed = v ∧
      (ensureCodeToggle cb key m).1.toggles.find? (keyMatches key) = some b ∧
      b.adjacent = true ∧ renderToggle showCodeLabel hideCodeLabel v b = b := by
  obtain ⟨b, hf, ha, hr⟩ := ensureToggle_settled showCodeLabel hideCodeLabel key m cb.toggles
  exact ⟨(ensureToggle showCodeLabel hideCodeLabel key m cb.toggles).2.2, b,
    ensureToggle_mget_key showCodeLabel hideCodeLabel key m cb.toggles, rfl, hf, ha, hr⟩

theorem ensureCodeToggle_mpres (cb : CodeBlock) (key : String) (m : StateMap) :
    mpres m (ensureCodeToggle cb key m).2 :=
  ensureToggle_mpres showCodeLabel hideCodeLabel key m cb.toggles

theorem ensureCodeToggle_fix (cb : CodeBlock) (key : String) (M : StateMap)
    (v : Bool) (b : Toggle)
    (hcol : cb.collapsed = v)
    (hm : mget M key = some v)
    (hfind : cb.toggles.find? (keyMatches key) = some b)
    (hadj : b.adjacent = true)
    (hrender : renderToggle showCodeLabel hideCodeLabel v b = b) :
    ensureCodeToggle cb key M = (cb, M) := by
  have he := ensureToggle_fix showCodeLabel hideCodeLabel key M cb.toggles v b
    hm hfind hadj hrender
  unfold ensureCodeToggle
  rw [he]
  exact congrArg (fun x => (x, M)) (CodeBlock_eta cb hcol)

/-! ## Lemmas: message-collapser stage -/

theorem getTurnKey_congr {t t' : Turn} (j : Nat)
    (h1 : t'.testId = t.testId) (h2 : t'.turnId = t.turnId)
    (h3 : t'.genericTurn = t.genericTurn) :
    getTurnKey t' j = getTurnKey t j := by
  unfold getTurnKey
  rw [h1, h2, h3]

theorem messageKeyOf_ensure (t : Turn) (msg : UserMsg) (key : String) (m : StateMap) (j : Nat) :
    messageKeyOf (ensureMessageToggle t msg key m).1 j = messageKeyOf t j := by
  unfold messageKeyOf
  rw [getTurnKey_congr j (ensureMessageToggle_frame t msg key m).1
    (ensureMessageToggle_frame t msg key m).2.1 (ensureMessageToggle_frame t msg key m).2.2.1]

theorem MsgSettled_nil (i : Nat) (M : StateMap) : MsgSettled i [] M := by
  intro j t hj
  simp at hj

theorem MsgSettled_cons {i : Nat} {t : Turn} {rest : List Turn} {M : StateMap} :
    MsgSettled i (t :: rest) M ↔
      (t.userMsg = none ∨
        ∃ v b, mget M (messageKeyOf t i) = some v ∧
          t.userMsg = some { collapsed := v } ∧
          t.msgToggles.find? (keyMatches (messageKeyOf t i)) = some b ∧
          b.adjacent = true ∧
          renderToggle showMyMessageLabel hideMyMessageLabel v b = b) ∧
      MsgSettled (i + 1) rest M := by
  constructor
  · intro h
    refine ⟨?_, ?_⟩
    · have := h 0 t (by simp)
      simpa using this
    · intro j t' hj
      have := h (j + 1) t' (by simpa using hj)
      simpa [Nat.add_comm, Nat.add_left_comm] using this
  · rintro ⟨hhead, htail⟩ j t' hj
    cases j with
    | zero =>
      obtain rfl : t = t' := by simpa using hj
      simpa using hhead
    | succ j' =>
      have := htail j' t' (by simpa using hj)
      simpa [Nat.add_comm, Nat.add_left_comm] using this

theorem applyMessageCollapsersGo_mpres :
    ∀ (l : List Turn) (i : Nat) (m : StateMap), mpres m (applyMessageCollapsersGo i l m).2
  | [], _, m => mpres_refl m
  | t :: rest, i, m => by
    cases hum : t.userMsg with
    | none =>
      simp only [applyMessageCollapsersGo, hum]
      exact applyMessageCollapsersGo_mpres rest (i + 1) m
    | some msg =>
      simp only [applyMessageCollapsersGo, hum]
      exact mpres_trans (ensureMessageToggle_mpres t msg (messageKeyOf t i) m)
        (applyMessageCollapsersGo_mpres rest (i + 1) _)

theorem applyMessageCollapsersGo_fix :
    ∀ (l : List Turn) (i : Nat) (M : StateMap),
      MsgSettled i l M → applyMessageCollapsersGo i l M = (l, M)
  | [], _, _, _ => rfl
  | t :: rest, i, M, h => by
    obtain ⟨hhead, htail⟩ := MsgSettled_cons.mp h
    have ih := applyMessageCollapsersGo_fix rest (i + 1) M htail
    cases hum : t.userMsg with
    | none => simp only [applyMessageCollapsersGo, hum, ih]
    | some msg =>
      rcases hhead with hnone | ⟨v, b, hm, hum', hfind, hadj, hrender⟩
      · rw [hum] at hnone
        exact absurd hnone (by simp)
      · have hmsg : msg = { collapsed := v } := by
          rw [hum] at hum'
          injection hum'
        have hfx := ensureMessageToggle_fix t msg (messageKeyOf t i) M v b hum hmsg hm
          hfind hadj hrender
        simp only [applyMessageCollapsersGo, hum, hfx, ih]

theorem applyMessageCollapsersGo_post :
    ∀ (l : List Turn) (i : Nat) (m M : StateMap),
      mpres (applyMessageCollapsersGo i l m).2 M →
      MsgSettled i (applyMessageCollapsersGo i l m).1 M
  | [], i, _, M, _ => MsgSettled_nil i M
  | t :: rest, i, m, M, hpres => by
    cases hum : t.userMsg with
    | none =>
      have hpres' : mpres (applyMessageCollapsersGo (i + 1) rest m).2 M := by
        simpa only [applyMessageCollapsersGo, hum] using hpres
      have ih := applyMessageCollapsersGo_post rest (i + 1) m M hpres'
      simp only [applyMessageCollapsersGo, hum]
      exact MsgSettled_cons.mpr ⟨Or.inl hum, ih⟩
    | some msg =>
      have hpres' : mpres (applyMessageCollapsersGo (i + 1) rest
          (ensureMessageToggle t msg (messageKeyOf t i) m).2).2 M := by
        simpa only [applyMessageCollapsersGo, hum] using hpres
      have ih := applyMessageCollapsersGo_post rest (i + 1)
        (ensureMessageToggle t msg (messageKeyOf t i) m).2 M hpres'
      obtain ⟨v, b, hm1, humsg, hfind, hadj, hrender⟩ :=
        ensureMessageToggle_post t msg (messageKeyOf t i) m
      have hmM : mget M (messageKeyOf t i) = some v :=
        hpres' _ v (applyMessageCollapsersGo_mpres rest (i + 1) _ _ v hm1)
      have hkey := messageKeyOf_ensure t msg (messageKeyOf t i) m i
      simp only [applyMessageCollapsersGo, hum]
      refine MsgSettled_cons.mpr ⟨Or.inr ⟨v, b, ?_, humsg, ?_, hadj, hrender⟩, ih⟩
      · rw [hkey]
        exact hmM
      · rw [hkey]
        exact hfind

/-! ## Lemmas: code-collapser stage -/

theorem codeKeyOf_congr {t t' : Turn} (j ci : Nat)
    (h1 : t'.testId = t.testId) (h2 : t'.turnId = t.turnId)
    (h3 : t'.genericTurn = t.genericTurn) :
    codeKeyOf t' j ci = codeKeyOf t j ci := by
  unfold codeKeyOf
  rw [getTurnKey_congr j h1 h2 h3]

theorem BlocksSettled_nil (t : Turn) (index start : Nat) (M : StateMap) :
    BlocksSettled t index start [] M := by
  intro j cb hj
  simp at hj

theorem BlocksSettled_cons {t : Turn} {index start : Nat} {cb : CodeBlock}
    {rest : List CodeBlock} {M : StateMap} :
    BlocksSettled t index start (cb :: rest) M ↔
      (∃ v b, mget M (codeKeyOf t index start) = some v ∧
        cb.collapsed = v ∧
        cb.toggles.find? (keyMatches (codeKeyOf t index start)) = some b ∧
        b.adjacent = true ∧
        renderToggle showCodeLabel hideCodeLabel v b = b) ∧
      BlocksSettled t index (start + 1) rest M := by
  constructor
  · intro h
    refine ⟨?_, ?_⟩
    · have := h 0 cb (by simp)
      simpa using this
    · intro j cb' hj
      have := h (j + 1) cb' (by simpa using hj)
      simpa [Nat.add_comm, Nat.add_left_comm] using this
  · rintro ⟨hhead, htail⟩ j cb' hj
    cases j with
    | zero =>
      obtain rfl : cb = cb' := by simpa using hj
      simpa using hhead
    | succ j' =>
      have := htail j' cb' (by simpa using hj)
      simpa [Nat.add_comm, Nat.add_left_comm] using this

theorem BlocksSettled_congr {t t' : Turn} {index start : Nat} {cbs : List CodeBlock}
    {M : StateMap}
    (h1 : t'.testId = t.testId) (h2 : t'.turnId = t.turnId)
    (h3 : t'.genericTurn = t.genericTurn)
    (h : BlocksSettled t index start cbs M) :
    BlocksSettled t' index start cbs M := by
  intro j cb hj
  obtain ⟨v, b, hv, hc, hf, ha, hr⟩ := h j cb hj
  exact ⟨v, b, by rw [codeKeyOf_congr _ _ h1 h2 h3]; exact hv, hc,
    by rw [codeKeyOf_congr _ _ h1 h2 h3]; exact hf, ha, hr⟩

theorem applyCodeCollapsersBlocks_mpres (t : Turn) (index : Nat) :
    ∀ (cbs : List CodeBlock) (start : Nat) (m : StateMap),
      mpres m (applyCodeCollapsersBlocks t index start cbs m).2
  | [], _, m => mpres_refl m
  | cb :: rest, start, m => by
    simp only [applyCodeCollapsersBlocks]
    exact mpres_trans (ensureCodeToggle_mpres cb (codeKeyOf t index start) m)
      (applyCodeCollapsersBlocks_mpres t index rest (start + 1) _)

theorem applyCodeCollapsersBlocks_fix (t : Turn) (index : Nat) :
    ∀ (cbs : List CodeBlock) (start : Nat) (M : StateMap),
      BlocksSettled t index start cbs M →
      applyCodeCollapsersBlocks t index start cbs M = (cbs, M)
  | [], _, _, _ => rfl
  | cb :: rest, start, M, h => by
    obtain ⟨⟨v, b, hm, hcol, hfind, hadj, hrender⟩, htail⟩ := BlocksSettled_cons.mp h
    have ih := applyCodeCollapsersBlocks_fix t index rest (start + 1) M htail
    have hfx := ensureCodeToggle_fix cb (codeKeyOf t index start) M v b hcol hm
      hfind hadj hrender
    simp only [applyCodeCollapsersBlocks, hfx, ih]

theorem applyCodeCollapsersBlocks_post (t : Turn) (index : Nat) :
    ∀ (cbs : List CodeBlock) (start : Nat) (m M : StateMap),
      mpres (applyCodeCollapsersBlocks t index start cbs m).2 M →
      BlocksSettled t index start (applyCodeCollapsersBlocks t index start cbs m).1 M
  | [], start, _, M, _ => BlocksSettled_nil t index start M
  | cb :: rest, start, m, M, hpres => by
    have hpres' : mpres (applyCodeCollapsersBlocks t index (start + 1) rest
        (ensureCodeToggle cb (codeKeyOf t index start) m).2).2 M := by
      simpa only [applyCodeCollapsersBlocks] using hpres
    have ih := applyCodeCollapsersBlocks_post t index rest (start + 1)
      (ensureCodeToggle cb (codeKeyOf t index start) m).2 M hpres'
    obtain ⟨v, b, hm1, hcol, hfind, hadj, hrender⟩ :=
      ensureCodeToggle_post cb (codeKeyOf t index start) m
    have hmM : mget M (codeKeyOf t index start) = some v :=
      hpres' _ v (applyCodeCollapsersBlocks_mpres t index rest (start + 1) _ _ v hm1)
    simp only [applyCodeCollapsersBlocks]
    exact BlocksSettled_cons.mpr ⟨⟨v, b, hmM, hcol, hfind, hadj, hrender⟩, ih⟩

theorem CodeSettled_nil (i : Nat) (M : StateMap) : CodeSettled i [] M := by
  intro j t hj
  simp at hj

theorem CodeSettled_cons {i : Nat} {t : Turn} {rest : List Turn} {M : StateMap} :
    CodeSettled i (t :: rest) M ↔
      BlocksSettled t i 0 t.codeBlocks M ∧ CodeSettled (i + 1) rest M := by
  constructor
  · intro h
    refine ⟨?_, ?_⟩
    · have := h 0 t (by simp)
      simpa using this
    · intro j t' hj
      have := h (j + 1) t' (by simpa using hj)
      simpa [Nat.add_comm, Nat.add_left_comm] using this
  · rintro ⟨hhead, htail⟩ j t' hj
    cases j with
    | zero =>
      obtain rfl : t = t' := by simpa using hj
      simpa using hhead
    | succ j' =>
      have := htail j' t' (by simpa using hj)
      simpa [Nat.add_comm, Nat.add_left_comm] using this

theorem applyCodeCollapsersGo_mpres :
    ∀ (l : List Turn) (i : Nat) (m : StateMap), mpres m (applyCodeCollapsersGo i l m).2
  | [], _, m => mpres_refl m
  | t :: rest, i, m => by
    simp only [applyCodeCollapsersGo]
    exact mpres_trans (applyCodeCollapsersBlocks_mpres t i t.codeBlocks 0 m)
      (applyCodeCollapsersGo_mpres rest (i + 1) _)

theorem applyCodeCollapsersGo_fix :
    ∀ (l : List Turn) (i : Nat) (M : StateMap),
      CodeSettled i l M → applyCodeCollapsersGo i l M = (l, M)
  | [], _, _, _ => rfl
  | t :: rest, i, M, h => by
    obtain ⟨hhead, htail⟩ := CodeSettled_cons.mp h
    have ih := applyCodeCollapsersGo_fix rest (i + 1) M htail
    have hfx := applyCodeCollapsersBlocks_fix t i t.codeBlocks 0 M hhead
    simp only [applyCodeCollapsersGo, hfx, ih]

theorem applyCodeCollapsersGo_post :
    ∀ (l : List Turn) (i : Nat) (m M : StateMap),
      mpres (applyCodeCollapsersGo i l m).2 M →
      CodeSettled i (applyCodeCollapsersGo i l m).1 M
  | [], i, _, M, _ => CodeSettled_nil i M
  | t :: rest, i, m, M, hpres => by
    have hpres' : mpres (applyCodeCollapsersGo (i + 1) rest
        (applyCodeCollapsersBlocks t i 0 t.codeBlocks m).2).2 M := by
      simpa only [applyCodeCollapsersGo] using hpres
    have ih := applyCodeCollapsersGo_post rest (i + 1)
      (applyCodeCollapsersBlocks t i 0 t.codeBlocks m).2 M hpres'
    have hblocks : BlocksSettled t i 0 (applyCodeCollapsersBlocks t i 0 t.codeBlocks m).1 M :=
      applyCodeCollapsersBlocks_post t i t.codeBlocks 0 m M
        (fun k v hv => hpres' k v (applyCodeCollapsersGo_mpres rest (i + 1) _ k v hv))
    simp only [applyCodeCollapsersGo]
    refine CodeSettled_cons.mpr ⟨?_, ih⟩
    exact BlocksSettled_congr rfl rfl rfl hblocks

/-! ## Lemmas: stage frames (fields the stages never touch) -/

theorem applyMessageCollapsersGo_length :
    ∀ (l : List Turn) (i : Nat) (m : StateMap),
      (applyMessageCollapsersGo i l m).1.length = l.length
  | [], _, _ => rfl
  | t :: rest, i, m => by
    cases hum : t.userMsg with
    | none =>
      simp only [applyMessageCollapsersGo, hum, List.length_cons]
      rw [applyMessageCollapsersGo_length rest (i + 1) m]
    | some msg =>
      simp only [applyMessageCollapsersGo, hum, List.length_cons]
      rw [applyMessageCollapsersGo_length rest (i + 1) _]

theorem applyMessageCollapsersGo_getElem :
    ∀ (l : List Turn) (i : Nat) (m : StateMap) (j : Nat) (t' : Turn),
      ((applyMessageCollapsersGo i l m).1)[j]? = some t' →
      ∃ t, l[j]? = some t ∧ t'.testId = t.testId ∧ t'.turnId = t.turnId ∧
        t'.genericTurn = t.genericTurn ∧ t'.hiddenClass = t.hiddenClass ∧
        t'.hiddenAttr = t.hiddenAttr ∧ t'.codeBlocks = t.codeBlocks
  | [], _, _, j, t', h => by simp [applyMessageCollapsersGo] at h
  | t :: rest, i, m, j, t', h => by
    cases hum : t.userMsg with
    | none =>
      rw [show applyMessageCollapsersGo i (t :: rest) m =
          (t :: (applyMessageCollapsersGo (i + 1) rest m).1,
           (applyMessageCollapsersGo (i + 1) rest m).2) by
        simp only [applyMessageCollapsersGo, hum]] at h
      cases j with
      | zero =>
        obtain rfl : t = t' := by simpa using h
        exact ⟨t, by simp, rfl, rfl, rfl, rfl, rfl, rfl⟩
      | succ j' =>
        rw [List.getElem?_cons_succ] at h
        obtain ⟨t₀, h₀, hframe⟩ := applyMessageCollapsersGo_getElem rest (i + 1) m j' t' h
        exact ⟨t₀, by simpa using h₀, hframe⟩
    | some msg =>
      rw [show applyMessageCollapsersGo i (t :: rest) m =
          ((ensureMessageToggle t msg (messageKeyOf t i) m).1 ::
            (applyMessageCollapsersGo (i + 1) rest
              (ensureMessageToggle t msg (messageKeyOf t i) m).2).1,
           (applyMessageCollapsersGo (i + 1) rest
              (ensureMessageToggle t msg (messageKeyOf t i) m).2).2) by
        simp only [applyMessageCollapsersGo, hum]] at h
      cases j with
      | zero =>
        obtain rfl : (ensureMessageToggle t msg (messageKeyOf t i) m).1 = t' := by
          simpa using h
        obtain ⟨f1, f2, f3, f4, f5, f6⟩ := ensureMessageToggle_frame t msg (messageKeyOf t i) m
        exact ⟨t, by simp, f1, f2, f3, f4, f5, f6⟩
      | succ j' =>
        rw [List.getElem?_cons_succ] at h
        obtain ⟨t₀, h₀, hframe⟩ := applyMessageCollapsersGo_getElem rest (i + 1) _ j' t' h
        exact ⟨t₀, by simpa using h₀, hframe⟩

theorem applyCodeCollapsersGo_length :
    ∀ (l : List Turn) (i : Nat) (m : StateMap),
      (applyCodeCollapsersGo i l m).1.length = l.length
  | [], _, _ => rfl
  | t :: rest, i, m => by
    simp only [applyCodeCollapsersGo, List.length_cons]
    rw [applyCodeCollapsersGo_length rest (i + 1) _]

theorem applyCodeCollapsersGo_getElem :
    ∀ (l : List Turn) (i : Nat) (m : StateMap) (j : Nat) (t' : Turn),
      ((applyCodeCollapsersGo i l m).1)[j]? = some t' →
      ∃ t, l[j]? = some t ∧ t'.testId = t.testId ∧ t'.turnId = t.turnId ∧
        t'.genericTurn = t.genericTurn ∧ t'.hiddenClass = t.hiddenClass ∧
        t'.hiddenAttr = t.hiddenAttr ∧ t'.userMsg = t.userMsg ∧ t'.msgToggles = t.msgToggles
  | [], _, _, j, t', h => by simp [applyCodeCollapsersGo] at h
  | t :: rest, i, m, j, t', h => by
    rw [show applyCodeCollapsersGo i (t :: rest) m =
        ({ t with codeBlocks := (applyCodeCollapsersBlocks t i 0 t.codeBlocks m).1 } ::
          (applyCodeCollapsersGo (i + 1) rest
            (applyCodeCollapsersBlocks t i 0 t.codeBlocks m).2).1,
         (applyCodeCollapsersGo (i + 1) rest
            (applyCodeCollapsersBlocks t i 0 t.codeBlocks m).2).2) by
      simp only [applyCodeCollapsersGo]] at h
    cases j with
    | zero =>
      obtain rfl : ({ t with codeBlocks := (applyCodeCollapsersBlocks t i 0 t.codeBlocks m).1 }
          : Turn) = t' := by simpa using h
      exact ⟨t, by simp, rfl, rfl, rfl, rfl, rfl, rfl, rfl⟩
    | succ j' =>
      rw [List.getElem?_cons_succ] at h
      obtain ⟨t₀, h₀, hframe⟩ := applyCodeCollapsersGo_getElem rest (i + 1) _ j' t' h
      exact ⟨t₀, by simpa using h₀, hframe⟩

/-! ## Lemmas: cleanup stages -/

theorem list_map_self {α : Type} {f : α → α} :
    ∀ {l : List α}, (∀ a ∈ l, f a = a) → l.map f = l
  | [], _ => rfl
  | a :: rest, h => by
    rw [List.map_cons, h a (by simp), list_map_self (fun x hx => h x (by simp [hx]))]

theorem cleanupMessageCollapsers_getElem (l : List Turn) (j : Nat) :
    (cleanupMessageCollapsers l)[j]? = (l[j]?).map (fun t =>
      { t with msgToggles := [],
               userMsg := t.userMsg.map (fun msg => { msg with collapsed := false }) }) := by
  unfold cleanupMessageCollapsers
  rw [List.getElem?_map]

theorem cleanupMessageCollapsers_length (l : List Turn) :
    (cleanupMessageCollapsers l).length = l.length := by
  unfold cleanupMessageCollapsers
  rw [List.length_map]

theorem cleanupMessageCollapsers_cleared (l : List Turn) :
    MsgCleared (cleanupMessageCollapsers l) := by
  intro t ht
  obtain ⟨t₀, _, rfl⟩ := List.mem_map.mp ht
  refine ⟨rfl, ?_⟩
  intro msg hmsg
  cases h₀ : t₀.userMsg with
  | none => rw [h₀] at hmsg; exact Option.noConfusion hmsg
  | some msg₀ =>
    rw [h₀] at hmsg
    obtain rfl : ({ msg₀ with collapsed := false } : UserMsg) = msg := by
      simpa using hmsg
    rfl

theorem cleanupMessageCollapsers_fix {l : List Turn} (h : MsgCleared l) :
    cleanupMessageCollapsers l = l := by
  unfold cleanupMessageCollapsers
  apply list_map_self
  intro t ht
  obtain ⟨htg, hmsg⟩ := h t ht
  have humsg : t.userMsg.map (fun msg => ({ msg with collapsed := false } : UserMsg)) =
      t.userMsg := by
    cases hu : t.userMsg with
    | none => rfl
    | some msg =>
      have hc := hmsg msg hu
      obtain ⟨c⟩ := msg
      simp only at hc
      simp [hc]
  rw [humsg]
  exact Turn_eta_msg t rfl htg

theorem cleanupCodeCollapsers_getElem (l : List Turn) (j : Nat) :
    (cleanupCodeCollapsers l)[j]? = (l[j]?).map (fun t =>
      { t with codeBlocks :=
          t.codeBlocks.map (fun cb => { cb with collapsed := false, toggles := [] }) }) := by
  unfold cleanupCodeCollapsers
  rw [List.getElem?_map]

theorem cleanupCodeCollapsers_length (l : List Turn) :
    (cleanupCodeCollapsers l).length = l.length := by
  unfold cleanupCodeCollapsers
  rw [List.length_map]

theorem cleanupCodeCollapsers_cleared (l : List Turn) :
    CodeCleared (cleanupCodeCollapsers l) := by
  intro t ht cb hcb
  obtain ⟨t₀, _, rfl⟩ := List.mem_map.mp ht
  simp only at hcb
  obtain ⟨cb₀, _, rfl⟩ := List.mem_map.mp hcb
  exact ⟨rfl, rfl⟩

theorem cleanupCodeCollapsers_fix {l : List Turn} (h : CodeCleared l) :
    cleanupCodeCollapsers l = l := by
  unfold cleanupCodeCollapsers
  apply list_map_self
  intro t ht
  have hcbs : t.codeBlocks.map (fun cb => ({ cb with collapsed := false, toggles := [] }
      : CodeBlock)) = t.codeBlocks := by
    apply list_map_self
    intro cb hcb
    obtain ⟨htg, hcol⟩ := h t ht cb hcb
    obtain ⟨c1, c2⟩ := cb
    simp only at htg hcol
    simp [htg, hcol]
  rw [hcbs]

/-! ## Lemmas: hide/show marking -/

theorem markTurns_getElem :
    ∀ (l : List Turn) (h i j : Nat),
      (markTurns h i l)[j]? = (l[j]?).map (fun t => setTurnHidden t (decide (i + j < h)))
  | [], h, i, j => by simp [markTurns]
  | t :: rest, h, i, j => by
    cases j with
    | zero => simp [markTurns]
    | succ j' =>
      have heq : i + 1 + j' = i + (j' + 1) := by omega
      simp only [markTurns, List.getElem?_cons_succ]
      rw [markTurns_getElem rest h (i + 1) j', heq]

theorem markTurns_length :
    ∀ (l : List Turn) (h i : Nat), (markTurns h i l).length = l.length
  | [], _, _ => rfl
  | t :: rest, h, i => by
    simp only [markTurns, List.length_cons]
    rw [markTurns_length rest h (i + 1)]

theorem markTurns_fix :
    ∀ (l : List Turn) (h i : Nat),
      (∀ j t, l[j]? = some t →
        t.hiddenClass = decide (i + j < h) ∧ t.hiddenAttr = decide (i + j < h)) →
      markTurns h i l = l
  | [], _, _, _ => rfl
  | t :: rest, h, i, hp => by
    have ht := hp 0 t (by simp)
    have htail : ∀ j t', rest[j]? = some t' →
        t'.hiddenClass = decide (i + 1 + j < h) ∧ t'.hiddenAttr = decide (i + 1 + j < h) := by
      intro j t' hj
      have h2 := hp (j + 1) t' (by simpa using hj)
      have heq : i + (j + 1) = i + 1 + j := by omega
      rw [heq] at h2
      exact h2
    simp only [markTurns]
    rw [Turn_eta_hidden t (by simpa using ht.1) (by simpa using ht.2),
      markTurns_fix rest h (i + 1) htail]

/-! ## Lemmas: collapser wrappers (both enabled and disabled branches) -/

theorem applyMessageCollapsers_mpres (l : List Turn) (e : Bool) (m : StateMap) :
    mpres m (applyMessageCollapsers l e m).2 := by
  cases e with
  | false => exact mpres_refl m
  | true => exact applyMessageCollapsersGo_mpres l 0 m

theorem applyMessageCollapsers_length (l : List Turn) (e : Bool) (m : StateMap) :
    (applyMessageCollapsers l e m).1.length = l.length := by
  cases e with
  | false => simp only [applyMessageCollapsers, Bool.not_false, if_true]
             exact cleanupMessageCollapsers_length l
  | true => simp only [applyMessageCollapsers, Bool.not_true, Bool.false_eq_true, if_false]
            exact applyMessageCollapsersGo_length l 0 m

theorem applyMessageCollapsers_getElem (l : List Turn) (e : Bool) (m : StateMap)
    (j : Nat) (t' : Turn) (h : ((applyMessageCollapsers l e m).1)[j]? = some t') :
    ∃ t, l[j]? = some t ∧ t'.testId = t.testId ∧ t'.turnId = t.turnId ∧
      t'.genericTurn = t.genericTurn ∧ t'.hiddenClass = t.hiddenClass ∧
      t'.hiddenAttr = t.hiddenAttr ∧ t'.codeBlocks = t.codeBlocks := by
  cases e with
  | false =>
    simp only [applyMessageCollapsers, Bool.not_false, if_true] at h
    rw [cleanupMessageCollapsers_getElem] at h
    cases hl : l[j]? with
    | none => rw [hl] at h; exact Option.noConfusion h
    | some t =>
      rw [hl] at h
      obtain rfl := (Option.some.injEq _ _).mp h.symm
      exact ⟨t, rfl, rfl, rfl, rfl, rfl, rfl, rfl⟩
  | true =>
    simp only [applyMessageCollapsers, Bool.not_true, Bool.false_eq_true, if_false] at h
    exact applyMessageCollapsersGo_getElem l 0 m j t' h

theorem applyCodeCollapsers_mpres (l : List Turn) (e : Bool) (m : StateMap) :
    mpres m (applyCodeCollapsers l e m).2 := by
  cases e with
  | false => exact mpres_refl m
  | true => exact applyCodeCollapsersGo_mpres l 0 m

theorem applyCodeCollapsers_length (l : List Turn) (e : Bool) (m : StateMap) :
    (applyCodeCollapsers l e m).1.length = l.length := by
  cases e with
  | false => simp only [applyCodeCollapsers, Bool.not_false, if_true]
             exact cleanupCodeCollapsers_length l
  | true => simp only [applyCodeCollapsers, Bool.not_true, Bool.false_eq_true, if_false]
            exact applyCodeCollapsersGo_length l 0 m

theorem applyCodeCollapsers_getElem (l : List Turn) (e : Bool) (m : StateMap)
    (j : Nat) (t' : Turn) (h : ((applyCodeCollapsers l e m).1)[j]? = some t') :
    ∃ t, l[j]? = some t ∧ t'.testId = t.testId ∧ t'.turnId = t.turnId ∧
      t'.genericTurn = t.genericTurn ∧ t'.hiddenClass = t.hiddenClass ∧
      t'.hiddenAttr = t.hiddenAttr ∧ t'.userMsg = t.userMsg ∧ t'.msgToggles = t.msgToggles := by
  cases e with
  | false =>
    simp only [applyCodeCollapsers, Bool.not_false, if_true] at h
    rw [cleanupCodeCollapsers_getElem] at h
    cases hl : l[j]? with
    | none => rw [hl] at h; exact Option.noConfusion h
    | some t =>
      rw [hl] at h
      obtain rfl := (Option.some.injEq _ _).mp h.symm
      exact ⟨t, rfl, rfl, rfl, rfl, rfl, rfl, rfl, rfl⟩
  | true =>
    simp only [applyCodeCollapsers, Bool.not_true, Bool.false_eq_true, if_false] at h
    exact applyCodeCollapsersGo_getElem l 0 m j t' h

/-! ## Lemmas: transporting settledness across the other stage -/

theorem MsgSettled_transport {i : Nat} {M : StateMap} {l l' : List Turn}
    (hframe : ∀ (j : Nat) (t' : Turn), l'[j]? = some t' → ∃ t, l[j]? = some t ∧
      t'.testId = t.testId ∧ t'.turnId = t.turnId ∧ t'.genericTurn = t.genericTurn ∧
      t'.userMsg = t.userMsg ∧ t'.msgToggles = t.msgToggles)
    (h : MsgSettled i l M) : MsgSettled i l' M := by
  intro j t' hj
  obtain ⟨t, hjt, h1, h2, h3, hum, htg⟩ := hframe j t' hj
  have hk : messageKeyOf t' (i + j) = messageKeyOf t (i + j) := by
    unfold messageKeyOf
    rw [getTurnKey_congr _ h1 h2 h3]
  rcases h j t hjt with hnone | ⟨v, b, hv, humsg, hfind, hadj, hr⟩
  · left
    rw [hum, hnone]
  · right
    exact ⟨v, b, by rw [hk]; exact hv, by rw [hum]; exact humsg,
      by rw [hk, htg]; exact hfind, hadj, hr⟩

theorem CodeSettled_transport {i : Nat} {M : StateMap} {l l' : List Turn}
    (hframe : ∀ (j : Nat) (t' : Turn), l'[j]? = some t' → ∃ t, l[j]? = some t ∧
      t'.testId = t.testId ∧ t'.turnId = t.turnId ∧ t'.genericTurn = t.genericTurn ∧
      t'.codeBlocks = t.codeBlocks)
    (h : CodeSettled i l M) : CodeSettled i l' M := by
  intro j t' hj
  obtain ⟨t, hjt, h1, h2, h3, hcb⟩ := hframe j t' hj
  have := h j t hjt
  rw [hcb]
  exact BlocksSettled_congr h1 h2 h3 this

theorem MsgCleared_transport {l l' : List Turn}
    (hframe : ∀ (j : Nat) (t' : Turn), l'[j]? = some t' → ∃ t, l[j]? = some t ∧
      t'.userMsg = t.userMsg ∧ t'.msgToggles = t.msgToggles)
    (h : MsgCleared l) : MsgCleared l' := by
  intro t' ht'
  obtain ⟨j, hj⟩ := List.mem_iff_getElem?.mp ht'
  obtain ⟨t, hjt, hum, htg⟩ := hframe j t' hj
  obtain ⟨h1, h2⟩ := h t (List.mem_iff_getElem?.mpr ⟨j, hjt⟩)
  refine ⟨by rw [htg]; exact h1, ?_⟩
  intro msg hmsg
  rw [hum] at hmsg
  exact h2 msg hmsg

theorem CodeCleared_transport {l l' : List Turn}
    (hframe : ∀ (j : Nat) (t' : Turn), l'[j]? = some t' → ∃ t, l[j]? = some t ∧
      t'.codeBlocks = t.codeBlocks)
    (h : CodeCleared l) : CodeCleared l' := by
  intro t' ht' cb hcb
  obtain ⟨j, hj⟩ := List.mem_iff_getElem?.mp ht'
  obtain ⟨t, hjt, hcbs⟩ := hframe j t' hj
  rw [hcbs] at hcb
  exact h t (List.mem_iff_getElem?.mpr ⟨j, hjt⟩) cb hcb

/-! ## Lemmas: one full reconciliation pass -/

theorem applyMessageCollapsers_true (l : List Turn) (m : StateMap) :
    applyMessageCollapsers l true m = applyMessageCollapsersGo 0 l m := by
  simp [applyMessageCollapsers]

theorem applyMessageCollapsers_false (l : List Turn) (m : StateMap) :
    applyMessageCollapsers l false m = (cleanupMessageCollapsers l, m) := by
  simp [applyMessageCollapsers]

theorem applyCodeCollapsers_true (l : List Turn) (m : StateMap) :
    applyCodeCollapsers l true m = applyCodeCollapsersGo 0 l m := by
  simp [applyCodeCollapsers]

theorem applyCodeCollapsers_false (l : List Turn) (m : StateMap) :
    applyCodeCollapsers l false m = (cleanupCodeCollapsers l, m) := by
  simp [applyCodeCollapsers]

theorem applyTrimming_eq_of_nil (s : Settings) (st : EngineState) (h : st.turns = []) :
    applyTrimming s st =
      ({ st with minimalUiClass := s.minimalUi, banner := none },
       { hiddenCount := 0, totalCount := 0, keepLastN := s.keepLastN }) := by
  have hemp : st.turns.isEmpty = true := List.isEmpty_iff.mpr h
  simp only [applyTrimming, hemp, if_true]

theorem applyTrimming_eq_of_ne_nil (s : Settings) (st : EngineState) (h : st.turns ≠ []) :
    applyTrimming s st =
      ({ turns := (applyCodeCollapsers
            (applyMessageCollapsers (markTurns (st.turns.length - s.keepLastN) 0 st.turns)
              s.collapseOwnMessages st.messages).1
            s.collapseCodeBlocks st.codeBlocksMap).1,
         banner := updateBanner (st.turns.length - s.keepLastN) st.turns.length
            s.keepLastN st.banner,
         messages := (applyMessageCollapsers
            (markTurns (st.turns.length - s.keepLastN) 0 st.turns)
            s.collapseOwnMessages st.messages).2,
         codeBlocksMap := (applyCodeCollapsers
            (applyMessageCollapsers (markTurns (st.turns.length - s.keepLastN) 0 st.turns)
              s.collapseOwnMessages st.messages).1
            s.collapseCodeBlocks st.codeBlocksMap).2,
         minimalUiClass := s.minimalUi },
       { hiddenCount := st.turns.length - s.keepLastN, totalCount := st.turns.length,
         keepLastN := s.keepLastN }) := by
  have hemp : st.turns.isEmpty = false := List.isEmpty_eq_false.mpr h
  simp only [applyTrimming, hemp, Bool.false_eq_true, if_false]

theorem applyTrimming_turns_length (s : Settings) (st : EngineState) :
    (applyTrimming s st).1.turns.length = st.turns.length := by
  by_cases h : st.turns = []
  · rw [applyTrimming_eq_of_nil s st h]
  · rw [applyTrimming_eq_of_ne_nil s st h]
    simp only
    rw [applyCodeCollapsers_length, applyMessageCollapsers_length, markTurns_length]

theorem applyTrimming_hiddenCount (s : Settings) (st : EngineState) :
    (applyTrimming s st).2.hiddenCount = st.turns.length - s.keepLastN := by
  by_cases h : st.turns = []
  · rw [applyTrimming_eq_of_nil s st h, h]
    simp
  · rw [applyTrimming_eq_of_ne_nil s st h]

theorem applyTrimming_marks (s : Settings) (st : EngineState) (j : Nat) (t : Turn)
    (hjt : (applyTrimming s st).1.turns[j]? = some t) :
    t.hiddenClass = decide (j < st.turns.length - s.keepLastN) ∧
    t.hiddenAttr = decide (j < st.turns.length - s.keepLastN) := by
  by_cases h : st.turns = []
  · rw [applyTrimming_eq_of_nil s st h] at hjt
    simp only [h] at hjt
    simp at hjt
  · rw [applyTrimming_eq_of_ne_nil s st h] at hjt
    simp only at hjt
    obtain ⟨t2, hj2, _, _, _, hc2, ha2, _, _⟩ :=
      applyCodeCollapsers_getElem _ _ _ j t hjt
    obtain ⟨t1, hj1, _, _, _, hc1, ha1, _⟩ :=
      applyMessageCollapsers_getElem _ _ _ j t2 hj2
    rw [markTurns_getElem] at hj1
    cases hT0 : st.turns[j]? with
    | none => rw [hT0] at hj1; exact Option.noConfusion hj1
    | some t0 =>
      rw [hT0] at hj1
      obtain rfl : setTurnHidden t0 (decide (0 + j < st.turns.length - s.keepLastN)) = t1 := by
        simpa using hj1
      constructor
      · rw [hc2, hc1]
        simp [setTurnHidden]
      · rw [ha2, ha1]
        simp [setTurnHidden]

theorem applyTrimming_msgSettled (s : Settings) (st : EngineState)
    (hOwn : s.collapseOwnMessages = true) (hne : st.turns ≠ []) :
    MsgSettled 0 (applyTrimming s st).1.turns (applyTrimming s st).1.messages := by
  rw [applyTrimming_eq_of_ne_nil s st hne]
  simp only
  rw [hOwn, applyMessageCollapsers_true]
  refine MsgSettled_transport ?_ (applyMessageCollapsersGo_post _ 0 _ _ (mpres_refl _))
  intro j t' hj
  obtain ⟨t, hjt, h1, h2, h3, _, _, hum, htg⟩ := applyCodeCollapsers_getElem _ _ _ j t' hj
  exact ⟨t, hjt, h1, h2, h3, hum, htg⟩

theorem applyTrimming_msgCleared (s : Settings) (st : EngineState)
    (hOwn : s.collapseOwnMessages = false) :
    MsgCleared (applyTrimming s st).1.turns := by
  by_cases h : st.turns = []
  · rw [applyTrimming_eq_of_nil s st h]
    intro t ht
    rw [h] at ht
    simp at ht
  · rw [applyTrimming_eq_of_ne_nil s st h]
    simp only
    rw [hOwn, applyMessageCollapsers_false]
    dsimp only
    refine MsgCleared_transport ?_ (cleanupMessageCollapsers_cleared
      (markTurns (st.turns.length - s.keepLastN) 0 st.turns))
    intro j t' hj
    obtain ⟨t, hjt, _, _, _, _, _, hum, htg⟩ := applyCodeCollapsers_getElem _ _ _ j t' hj
    exact ⟨t, hjt, hum, htg⟩

theorem applyTrimming_codeSettled (s : Settings) (st : EngineState)
    (hCode : s.collapseCodeBlocks = true) (hne : st.turns ≠ []) :
    CodeSettled 0 (applyTrimming s st).1.turns (applyTrimming s st).1.codeBlocksMap := by
  rw [applyTrimming_eq_of_ne_nil s st hne]
  simp only
  rw [hCode, applyCodeCollapsers_true]
  exact applyCodeCollapsersGo_post _ 0 _ _ (mpres_refl _)

theorem applyTrimming_codeCleared (s : Settings) (st : EngineState)
    (hCode : s.collapseCodeBlocks = false) :
    CodeCleared (applyTrimming s st).1.turns := by
  by_cases h : st.turns = []
  · rw [applyTrimming_eq_of_nil s st h]
    intro t ht
    rw [h] at ht
    simp at ht
  · rw [applyTrimming_eq_of_ne_nil s st h]
    simp only
    rw [hCode, applyCodeCollapsers_false]
    exact cleanupCodeCollapsers_cleared _

theorem applyTrimming_minimalUi (s : Settings) (st : EngineState) :
    (applyTrimming s st).1.minimalUiClass = s.minimalUi := by
  by_cases h : st.turns = []
  · rw [applyTrimming_eq_of_nil s st h]
  · rw [applyTrimming_eq_of_ne_nil s st h]

/-- C2: running a reconciliation pass twice in a row with the same settings
and starting from the state the first pass produced yields exactly the same
engine state (turn markers, toggle buttons, banner, collapse-state maps)
and the same result: the second pass finds and reuses what the first pass
built instead of inserting anything new. -/
theorem trimmer_C2_reconciliation_pass_idempotent (s : Settings) (st : EngineState) :
    applyTrimming s (applyTrimming s st).1 = applyTrimming s st := by
  by_cases h0 : st.turns = []
  · rw [applyTrimming_eq_of_nil s st h0]
    dsimp only
    rw [applyTrimming_eq_of_nil s _
      (show ({ st with minimalUiClass := s.minimalUi, banner := none }
        : EngineState).turns = [] from h0)]
  · set st1 := (applyTrimming s st).1 with hst1
    have hlen1 : st1.turns.length = st.turns.length := by
      rw [hst1]
      exact applyTrimming_turns_length s st
    have hne1 : st1.turns ≠ [] := by
      intro hnil
      apply h0
      apply List.length_eq_zero.mp
      rw [← hlen1, hnil]
      rfl
    have hsnd : (applyTrimming s st).2 =
        { hiddenCount := st.turns.length - s.keepLastN, totalCount := st.turns.length,
          keepLastN := s.keepLastN } := by
      rw [applyTrimming_eq_of_ne_nil s st h0]
    have hgoal : applyTrimming s st =
        (st1,
          ({ hiddenCount := st.turns.length - s.keepLastN, totalCount := st.turns.length,
             keepLastN := s.keepLastN } : ApplyResult)) := by
      rw [← hsnd, hst1]
    rw [hgoal, applyTrimming_eq_of_ne_nil s st1 hne1]
    have hmarked : markTurns (st1.turns.length - s.keepLastN) 0 st1.turns = st1.turns := by
      apply markTurns_fix
      intro j t hjt
      have hm := applyTrimming_marks s st j t (by rw [← hst1]; exact hjt)
      rw [hlen1]
      simpa using hm
    rw [hmarked]
    have hmsg2 : applyMessageCollapsers st1.turns s.collapseOwnMessages st1.messages =
        (st1.turns, st1.messages) := by
      cases hOwn : s.collapseOwnMessages with
      | false =>
        rw [applyMessageCollapsers_false,
          cleanupMessageCollapsers_fix (by rw [hst1]; exact applyTrimming_msgCleared s st hOwn)]
      | true =>
        rw [applyMessageCollapsers_true]
        exact applyMessageCollapsersGo_fix st1.turns 0 st1.messages
          (by rw [hst1]; exact applyTrimming_msgSettled s st hOwn h0)
    rw [hmsg2]
    dsimp only
    have hcode2 : applyCodeCollapsers st1.turns s.collapseCodeBlocks st1.codeBlocksMap =
        (st1.turns, st1.codeBlocksMap) := by
      cases hCode : s.collapseCodeBlocks with
      | false =>
        rw [applyCodeCollapsers_false,
          cleanupCodeCollapsers_fix (by rw [hst1]; exact applyTrimming_codeCleared s st hCode)]
      | true =>
        rw [applyCodeCollapsers_true]
        exact applyCodeCollapsersGo_fix st1.turns 0 st1.codeBlocksMap
          (by rw [hst1]; exact applyTrimming_codeSettled s st hCode h0)
    rw [hcode2]
    dsimp only
    have hban1 : st1.banner = updateBanner (st.turns.length - s.keepLastN) st.turns.length
        s.keepLastN st.banner := by
      rw [hst1, applyTrimming_eq_of_ne_nil s st h0]
    have hmu1 : st1.minimalUiClass = s.minimalUi := by
      rw [hst1]
      exact applyTrimming_minimalUi s st
    have hb2 : updateBanner (st1.turns.length - s.keepLastN) st1.turns.length
        s.keepLastN st1.banner = st1.banner := by
      rw [hban1, hlen1]
      rfl
    rw [hb2, hlen1, ← hmu1]

/-! ## Lemmas: remaining pass facts -/

theorem applyTrimming_totalCount (s : Settings) (st : EngineState) :
    (applyTrimming s st).2.totalCount = st.turns.length := by
  by_cases h : st.turns = []
  · rw [applyTrimming_eq_of_nil s st h, h]
    rfl
  · rw [applyTrimming_eq_of_ne_nil s st h]

theorem applyTrimming_keepLastN (s : Settings) (st : EngineState) :
    (applyTrimming s st).2.keepLastN = s.keepLastN := by
  by_cases h : st.turns = []
  · rw [applyTrimming_eq_of_nil s st h]
  · rw [applyTrimming_eq_of_ne_nil s st h]

theorem applyTrimming_banner (s : Settings) (st : EngineState) :
    (applyTrimming s st).1.banner =
      updateBanner (st.turns.length - s.keepLastN) st.turns.length s.keepLastN st.banner := by
  by_cases h : st.turns = []
  · rw [applyTrimming_eq_of_nil s st h, h]
    simp [updateBanner]
  · rw [applyTrimming_eq_of_ne_nil s st h]

theorem updateBanner_isSome (hiddenCount totalCount keepLastN : Nat) (b : Option String) :
    (updateBanner hiddenCount totalCount keepLastN b).isSome = true ↔ 0 < hiddenCount := by
  unfold updateBanner
  by_cases h : hiddenCount ≤ 0
  · rw [if_pos h]
    simp only [Option.isSome_none, Bool.false_eq_true, false_iff]
    omega
  · rw [if_neg h]
    simp only [Option.isSome_some, true_iff]
    omega

theorem applyTrimming_messages_mpres (s : Settings) (st : EngineState) :
    mpres st.messages (applyTrimming s st).1.messages := by
  by_cases h : st.turns = []
  · rw [applyTrimming_eq_of_nil s st h]
    exact mpres_refl _
  · rw [applyTrimming_eq_of_ne_nil s st h]
    exact applyMessageCollapsers_mpres _ _ _

theorem applyTrimming_codeBlocksMap_mpres (s : Settings) (st : EngineState) :
    mpres st.codeBlocksMap (applyTrimming s st).1.codeBlocksMap := by
  by_cases h : st.turns = []
  · rw [applyTrimming_eq_of_nil s st h]
    exact mpres_refl _
  · rw [applyTrimming_eq_of_ne_nil s st h]
    exact applyCodeCollapsers_mpres _ _ _

/-- C1: one reconciliation pass with a clamped keep count `K ≥ 1` on a turn
list of length `T` reports `hiddenCount = max(0, T - K)` with
`totalCount = T` and `keepLastN = K`, marks exactly the first `hiddenCount`
turns (both the hidden class and the hidden attribute) and unmarks the
rest, and afterwards the banner exists iff `hiddenCount > 0`, in which
case its text is exactly
`"{hiddenCount} older messages hidden. Showing the last {K} turns ({T} total)."`. -/
theorem trimmer_C1_visibility_reconciler (s : Settings) (st : EngineState)
    (_hK : 1 ≤ s.keepLastN) :
    ((applyTrimming s st).2.hiddenCount : Int) =
        max 0 ((st.turns.length : Int) - (s.keepLastN : Int)) ∧
    (applyTrimming s st).2.totalCount = st.turns.length ∧
    (applyTrimming s st).2.keepLastN = s.keepLastN ∧
    (applyTrimming s st).1.turns.length = st.turns.length ∧
    (∀ j t, (applyTrimming s st).1.turns[j]? = some t →
      t.hiddenClass = decide (j < (applyTrimming s st).2.hiddenCount) ∧
      t.hiddenAttr = decide (j < (applyTrimming s st).2.hiddenCount)) ∧
    ((applyTrimming s st).1.banner.isSome = true ↔
      0 < (applyTrimming s st).2.hiddenCount) ∧
    (0 < (applyTrimming s st).2.hiddenCount →
      (applyTrimming s st).1.banner =
        some (bannerText (applyTrimming s st).2.hiddenCount st.turns.length s.keepLastN)) := by
  refine ⟨?_, applyTrimming_totalCount s st, applyTrimming_keepLastN s st,
    applyTrimming_turns_length s st, ?_, ?_, ?_⟩
  · rw [applyTrimming_hiddenCount]
    omega
  · intro j t hjt
    rw [applyTrimming_hiddenCount]
    exact applyTrimming_marks s st j t hjt
  · rw [applyTrimming_banner, applyTrimming_hiddenCount]
    exact updateBanner_isSome _ _ _ _
  · intro hpos
    rw [applyTrimming_hiddenCount] at hpos
    rw [applyTrimming_banner, applyTrimming_hiddenCount]
    unfold updateBanner
    rw [if_neg (by omega)]

/-- C10: the hidden class and the hidden data attribute always agree: they
are set and cleared together by `setTurnHidden`, and after any
reconciliation pass or show-all pass every turn carries either both
markers or neither. -/
theorem trimmer_C10_hidden_markers_agree :
    (∀ (t : Turn) (b : Bool),
      (setTurnHidden t b).hiddenClass = (setTurnHidden t b).hiddenAttr) ∧
    (∀ (s : Settings) (st : EngineState) (t : Turn),
      t ∈ (applyTrimming s st).1.turns → t.hiddenClass = t.hiddenAttr) ∧
    (∀ (st : EngineState) (t : Turn),
      t ∈ (showAllTurns st).turns → t.hiddenClass = t.hiddenAttr) := by
  refine ⟨fun t b => rfl, ?_, ?_⟩
  · intro s st t ht
    obtain ⟨j, hj⟩ := List.mem_iff_getElem?.mp ht
    obtain ⟨h1, h2⟩ := applyTrimming_marks s st j t hj
    rw [h1, h2]
  · intro st t ht
    obtain ⟨t₀, _, rfl⟩ := List.mem_map.mp ht
    rfl

/-- C3: `clampKeepLastN` parses any input as a decimal integer and clamps
the result into `[1, 500]`, falling back to the default `6` when parsing
fails; in particular `0`, `-5`, `"abc"` and `501` normalize to `1`, `1`,
`6` and `500`. -/
theorem trimmer_C3_clamp_keepLastN (v : JSVal) :
    (jsParseInt (jsToString v) = none → clampKeepLastN v = 6) ∧
    (∀ n : Int, jsParseInt (jsToString v) = some n →
      clampKeepLastN v = min 500 (max 1 n)) ∧
    1 ≤ clampKeepLastN v ∧ clampKeepLastN v ≤ 500 ∧
    clampKeepLastN (.num 0) = 1 ∧ clampKeepLastN (.num (-5)) = 1 ∧
    clampKeepLastN (.str "abc") = 6 ∧ clampKeepLastN (.num 501) = 500 := by
  have hval : (jsParseInt (jsToString v) = none → clampKeepLastN v = 6) ∧
      (∀ n : Int, jsParseInt (jsToString v) = some n →
        clampKeepLastN v = min 500 (max 1 n)) ∧
      1 ≤ clampKeepLastN v ∧ clampKeepLastN v ≤ 500 := by
    rcases h : jsParseInt (jsToString v) with _ | n
    · refine ⟨fun _ => ?_, fun n hn => ?_, ?_, ?_⟩
      · simp [clampKeepLastN, h, defaultKeepLastN]
      · exact Option.noConfusion hn
      · simp [clampKeepLastN, h, defaultKeepLastN]
      · simp [clampKeepLastN, h, defaultKeepLastN]
    · have hc : clampKeepLastN v = min 500 (max 1 n) := by
        simp [clampKeepLastN, h, maxKeepLastN, minKeepLastN]
      refine ⟨fun hn => ?_, fun n' hn => ?_, ?_, ?_⟩
      · exact Option.noConfusion hn
      · obtain rfl : n = n' := by injection hn
        exact hc
      · rw [hc]
        simp only [le_min_iff]
        exact ⟨by omega, le_max_left 1 n⟩
      · rw [hc]
        exact min_le_left 500 (max 1 n)
  exact ⟨hval.1, hval.2.1, hval.2.2.1, hval.2.2.2, by decide, by decide, by decide, by decide⟩

/-- C4: a collapse-state entry is created lazily with `collapsed = true`
the first time a toggle is ensured for its key; a reconciliation pass only
ever preserves entries that are already present (for both maps); and when
an entry is already stored, ensuring a toggle — even on a freshly created
node that carries no toggle yet — renders the node with exactly the stored
boolean and leaves the map untouched. -/
theorem trimmer_C4_collapse_state_lifecycle :
    (∀ (sl hl key : String) (m : StateMap) (l : List Toggle),
      mget m key = none → mget (ensureToggle sl hl key m l).2.1 key = some true) ∧
    (∀ (s : Settings) (st : EngineState) (k : String) (v : Bool),
      mget st.messages k = some v → mget (applyTrimming s st).1.messages k = some v) ∧
    (∀ (s : Settings) (st : EngineState) (k : String) (v : Bool),
      mget st.codeBlocksMap k = some v →
        mget (applyTrimming s st).1.codeBlocksMap k = some v) ∧
    (∀ (t : Turn) (msg : UserMsg) (key : String) (m : StateMap) (v : Bool),
      mget m key = some v →
        (ensureMessageToggle t msg key m).1.userMsg = some { collapsed := v } ∧
        (ensureMessageToggle t msg key m).2 = m) ∧
    (∀ (cb : CodeBlock) (key : String) (m : StateMap) (v : Bool),
      mget m key = some v →
        (ensureCodeToggle cb key m).1.collapsed = v ∧ (ensureCodeToggle cb key m).2 = m) := by
  refine ⟨?_, ?_, ?_, ?_, ?_⟩
  · intro sl hl key m l h
    rw [(ensureToggle_map_none sl hl key m l h).1]
    exact mget_mset_self m key true
  · intro s st k v h
    exact applyTrimming_messages_mpres s st k v h
  · intro s st k v h
    exact applyTrimming_codeBlocksMap_mpres s st k v h
  · intro t msg key m v h
    obtain ⟨h1, h2⟩ := ensureToggle_map_some showMyMessageLabel hideMyMessageLabel key m
      t.msgToggles v h
    constructor
    · have hshape : (ensureMessageToggle t msg key m).1.userMsg =
          some { collapsed := (ensureToggle showMyMessageLabel hideMyMessageLabel key m
            t.msgToggles).2.2 } := rfl
      rw [hshape, h2]
    · have hshape : (ensureMessageToggle t msg key m).2 =
          (ensureToggle showMyMessageLabel hideMyMessageLabel key m t.msgToggles).2.1 := rfl
      rw [hshape, h1]
  · intro cb key m v h
    obtain ⟨h1, h2⟩ := ensureToggle_map_some showCodeLabel hideCodeLabel key m cb.toggles v h
    constructor
    · have hshape : (ensureCodeToggle cb key m).1.collapsed =
          (ensureToggle showCodeLabel hideCodeLabel key m cb.toggles).2.2 := rfl
      rw [hshape, h2]
    · have hshape : (ensureCodeToggle cb key m).2 =
          (ensureToggle showCodeLabel hideCodeLabel key m cb.toggles).2.1 := rfl
      rw [hshape, h1]

/-- C5: the `TRIMMER_SHOW_ALL` handler clears both hidden markers from
every located turn, removes the banner, leaves the persisted settings,
the two collapse-state maps, every toggle button, every collapse marker
and the minimal-UI class untouched, and replies exactly
`{ok:true, hiddenCount:0}`. -/
theorem trimmer_C5_show_all_command (stored : Settings) (st : EngineState)
    (oc : ChainOutcome) :
    onMessage .showAll stored st oc = (stored, showAllTurns st, some (.showAllOk 0)) ∧
    (showAllTurns st).banner = none ∧
    (showAllTurns st).messages = st.messages ∧
    (showAllTurns st).codeBlocksMap = st.codeBlocksMap ∧
    (showAllTurns st).minimalUiClass = st.minimalUiClass ∧
    (showAllTurns st).turns.length = st.turns.length ∧
    (∀ (j : Nat) (t : Turn), st.turns[j]? = some t →
      (showAllTurns st).turns[j]? = some (setTurnHidden t false) ∧
      (setTurnHidden t false).hiddenClass = false ∧
      (setTurnHidden t false).hiddenAttr = false ∧
      (setTurnHidden t false).msgToggles = t.msgToggles ∧
      (setTurnHidden t false).userMsg = t.userMsg ∧
      (setTurnHidden t false).codeBlocks = t.codeBlocks) := by
  refine ⟨rfl, rfl, rfl, rfl, rfl, ?_, ?_⟩
  · show (st.turns.map (fun t => setTurnHidden t false)).length = st.turns.length
    rw [List.length_map]
  · intro j t hjt
    refine ⟨?_, rfl, rfl, rfl, rfl, rfl⟩
    have hmap : (showAllTurns st).turns = st.turns.map (fun t => setTurnHidden t false) := rfl
    rw [hmap, List.getElem?_map, hjt]
    rfl

/-- C6: the `TRIMMER_APPLY` handler always delivers a response through the
callback; on the normal path it persists the normalized payload, runs one
reconciliation pass against the re-read settings and replies
`{ok:true, hiddenCount, totalCount, keepLastN}` with the pass's counts; if
the persist/apply promise chain rejects, the `.catch` replies
`{ok:false, error}` instead of letting the rejection escape. -/
theorem trimmer_C6_apply_command (stored : Settings) (st : EngineState)
    (k m o c : JSVal) (oc : ChainOutcome) :
    ((onMessage (.apply k m o c) stored st oc).2.2).isSome = true ∧
    (oc = .chainOk →
      onMessage (.apply k m o c) stored st oc =
        (normalizeApplyPayload k m o c,
         (applyTrimming (loadSettings (normalizeApplyPayload k m o c)) st).1,
         some (.applyOk
           (applyTrimming (loadSettings (normalizeApplyPayload k m o c)) st).2.hiddenCount
           (applyTrimming (loadSettings (normalizeApplyPayload k m o c)) st).2.totalCount
           (applyTrimming (loadSettings (normalizeApplyPayload k m o c)) st).2.keepLastN))) ∧
    (∀ e, oc = .persistFailed e →
      onMessage (.apply k m o c) stored st oc = (stored, st, some (.applyFailed e))) ∧
    (∀ e, oc = .applyFailed e →
      onMessage (.apply k m o c) stored st oc =
        (normalizeApplyPayload k m o c, st, some (.applyFailed e))) := by
  cases oc with
  | chainOk =>
    refine ⟨rfl, fun _ => rfl, fun e he => ?_, fun e he => ?_⟩
    · exact ChainOutcome.noConfusion he
    · exact ChainOutcome.noConfusion he
  | persistFailed e₀ =>
    refine ⟨rfl, fun hok => ?_, fun e he => ?_, fun e he => ?_⟩
    · exact ChainOutcome.noConfusion hok
    · obtain rfl : e₀ = e := by injection he
      rfl
    · exact ChainOutcome.noConfusion he
  | applyFailed e₀ =>
    refine ⟨rfl, fun hok => ?_, fun e he => ?_, fun e he => ?_⟩
    · exact ChainOutcome.noConfusion hok
    · exact ChainOutcome.noConfusion he
    · obtain rfl : e₀ = e := by injection he
      rfl

/-! ## Lemmas: escape hatch -/

theorem messageKeyOf_not_empty (t : Turn) (i : Nat) :
    (messageKeyOf t i).isEmpty = false := by
  rw [Bool.eq_false_iff]
  intro hemp
  have hnil : messageKeyOf t i = "" := (String.isEmpty_iff _).mp hemp
  have hlen := congrArg String.length hnil
  rw [messageKeyOf, String.length_append] at hlen
  have h14 : ("::user-message" : String).length = 14 := rfl
  have h0 : ("" : String).length = 0 := rfl
  rw [h14, h0] at hlen
  omega

/-- C7: for a click whose target is an element inside a turn whose user
message is currently collapsed, and which is not on (or inside) the
message toggle itself, the capturing document-level listener stores
`collapsed = false` for that message's identity key and re-renders the
message expanded with the toggle relabelled, touching no other turn and no
other map entry; being registered with `capture = true`, it does this
before the host page processes the click. -/
theorem trimmer_C7_escape_hatch (turns : List Turn) (m : StateMap) (c : Click)
    (i : Nat) (turn : Turn) (msg : UserMsg) (b : Toggle) (rest : List Toggle)
    (h1 : c.targetIsElement = true) (h2 : c.insideMessageToggle = false)
    (h3 : c.closestArticle = some i) (h4 : turns[i]? = some turn)
    (h5 : turn.userMsg = some msg) (h6 : msg.collapsed = true)
    (h7 : turn.msgToggles = b :: rest)
    (h8 : b.key = messageKeyOf turn i) :
    mget (handleDocumentClick turns m c).2 (messageKeyOf turn i) = some false ∧
    (∀ k' : String, k' ≠ messageKeyOf turn i →
      mget (handleDocumentClick turns m c).2 k' = mget m k') ∧
    (handleDocumentClick turns m c).1[i]? = some { turn with
      userMsg := some { msg with collapsed := false },
      msgToggles := renderToggle showMyMessageLabel hideMyMessageLabel false b :: rest } ∧
    (∀ j : Nat, j ≠ i → (handleDocumentClick turns m c).1[j]? = turns[j]?) := by
  have hres : handleDocumentClick turns m c =
      (turns.set i { turn with
        userMsg := some { msg with collapsed := false },
        msgToggles := renderToggle showMyMessageLabel hideMyMessageLabel false b :: rest },
       mset m b.key false) := by
    have hkey : (!b.key.isEmpty) = true := by
      rw [h8, messageKeyOf_not_empty]
      rfl
    unfold handleDocumentClick
    simp only [h1, h2, h3, h4, h5, h6, h7, hkey, Bool.not_true, Bool.not_false,
      Bool.false_eq_true, if_false, if_true]
  rw [hres]
  have hi : i < turns.length := by
    by_contra hge
    rw [List.getElem?_eq_none (by omega)] at h4
    exact Option.noConfusion h4
  refine ⟨?_, ?_, ?_, ?_⟩
  · rw [← h8]
    exact mget_mset_self m b.key false
  · intro k' hk'
    rw [← h8] at hk'
    exact mget_mset_ne m b.key k' false hk'
  · rw [List.getElem?_set_self hi]
  · intro j hj
    rw [List.getElem?_set_ne (fun he => hj he.symm)]

/-- C8: disabling a collapse feature removes every toggle control of that
kind and clears every collapsed marker of that kind from the located
turns, regardless of what the collapse-state map contains (the map itself
is returned unchanged), and leaves the hidden markers and the other
feature's structures untouched. -/
theorem trimmer_C8_disable_cleanup (turns : List Turn) (m : StateMap) :
    (applyMessageCollapsers turns false m).2 = m ∧
    (applyCodeCollapsers turns false m).2 = m ∧
    (applyMessageCollapsers turns false m).1.length = turns.length ∧
    (applyCodeCollapsers turns false m).1.length = turns.length ∧
    (∀ (j : Nat) (t' : Turn), (applyMessageCollapsers turns false m).1[j]? = some t' →
      t'.msgToggles = [] ∧ (∀ msg, t'.userMsg = some msg → msg.collapsed = false) ∧
      ∃ t, turns[j]? = some t ∧ t'.codeBlocks = t.codeBlocks ∧
        t'.hiddenClass = t.hiddenClass ∧ t'.hiddenAttr = t.hiddenAttr) ∧
    (∀ (j : Nat) (t' : Turn), (applyCodeCollapsers turns false m).1[j]? = some t' →
      (∀ cb ∈ t'.codeBlocks, cb.toggles = [] ∧ cb.collapsed = false) ∧
      ∃ t, turns[j]? = some t ∧ t'.userMsg = t.userMsg ∧ t'.msgToggles = t.msgToggles ∧
        t'.hiddenClass = t.hiddenClass ∧ t'.hiddenAttr = t.hiddenAttr) := by
  refine ⟨rfl, rfl, ?_, ?_, ?_, ?_⟩
  · rw [applyMessageCollapsers_false]
    exact cleanupMessageCollapsers_length turns
  · rw [applyCodeCollapsers_false]
    exact cleanupCodeCollapsers_length turns
  · intro j t' hj
    rw [applyMessageCollapsers_false] at hj
    have hmem : t' ∈ cleanupMessageCollapsers turns := by
      have hj' : (cleanupMessageCollapsers turns)[j]? = some t' := hj
      exact List.mem_iff_getElem?.mpr ⟨j, hj'⟩
    obtain ⟨htg, hcoll⟩ := cleanupMessageCollapsers_cleared turns t' hmem
    refine ⟨htg, hcoll, ?_⟩
    rw [cleanupMessageCollapsers_getElem] at hj
    cases hl : turns[j]? with
    | none => rw [hl] at hj; exact Option.noConfusion hj
    | some t =>
      rw [hl] at hj
      obtain rfl := (Option.some.injEq _ _).mp hj.symm
      exact ⟨t, rfl, rfl, rfl, rfl⟩
  · intro j t' hj
    rw [applyCodeCollapsers_false] at hj
    have hmem : t' ∈ cleanupCodeCollapsers turns := by
      have hj' : (cleanupCodeCollapsers turns)[j]? = some t' := hj
      exact List.mem_iff_getElem?.mpr ⟨j, hj'⟩
    refine ⟨cleanupCodeCollapsers_cleared turns t' hmem, ?_⟩
    rw [cleanupCodeCollapsers_getElem] at hj
    cases hl : turns[j]? with
    | none => rw [hl] at hj; exact Option.noConfusion hj
    | some t =>
      rw [hl] at hj
      obtain rfl := (Option.some.injEq _ _).mp hj.symm
      exact ⟨t, rfl, rfl, rfl, rfl, rfl⟩

/-- C9: the turn locator uses the primary selector's matches whenever there
are any, falls back to the secondary selector only when the primary result
is empty, keeps only elements inside the thread root whenever a thread
root exists, and returns an empty list rather than failing when nothing
matches. -/
theorem trimmer_C9_turn_locator (d : LocatorDoc) :
    (d.primaryMatches ≠ [] → ∀ e ∈ getConversationTurns d, e ∈ d.primaryMatches) ∧
    (d.primaryMatches = [] → ∀ e ∈ getConversationTurns d, e ∈ d.fallbackMatches) ∧
    (d.hasThreadRoot = true → ∀ e ∈ getConversationTurns d, e.inThreadRoot = true) ∧
    (∀ e ∈ getConversationTurns d, e.isHtmlElement = true) ∧
    (d.primaryMatches = [] → d.fallbackMatches = [] → getConversationTurns d = []) := by
  have hbase : ∀ e ∈ getConversationTurns d,
      e ∈ (if d.primaryMatches.isEmpty then d.fallbackMatches else d.primaryMatches) := by
    intro e he
    unfold getConversationTurns at he
    have he1 := (List.mem_filter.mp he).1
    by_cases hroot : d.hasThreadRoot = true
    · rw [if_pos hroot] at he1
      exact (List.mem_filter.mp he1).1
    · rw [if_neg hroot] at he1
      exact he1
  refine ⟨?_, ?_, ?_, ?_, ?_⟩
  · intro hne e he
    have := hbase e he
    rw [if_neg (by simpa [List.isEmpty_eq_false] using hne)] at this
    exact this
  · intro hnil e he
    have := hbase e he
    rw [if_pos (List.isEmpty_iff.mpr hnil)] at this
    exact this
  · intro hroot e he
    unfold getConversationTurns at he
    have he1 := (List.mem_filter.mp he).1
    rw [if_pos hroot] at he1
    exact (List.mem_filter.mp he1).2
  · intro e he
    unfold getConversationTurns at he
    exact (List.mem_filter.mp he).2
  · intro h1 h2
    unfold getConversationTurns
    rw [h1, h2]
    simp

/-! ## Witnesses -/

/-- Witness for C1 on the spec scenario `T = 10`, `K = 6`. -/
theorem trimmer_C1_witness :
    1 ≤ demoSettings.keepLastN ∧
    ((applyTrimming demoSettings demoState).2.hiddenCount : Int) =
      max 0 ((demoState.turns.length : Int) - (demoSettings.keepLastN : Int)) ∧
    (applyTrimming demoSettings demoState).1.banner =
      some (bannerText (applyTrimming demoSettings demoState).2.hiddenCount
        demoState.turns.length demoSettings.keepLastN) :=
  ⟨by decide,
   (trimmer_C1_visibility_reconciler demoSettings demoState (by decide)).1,
   (trimmer_C1_visibility_reconciler demoSettings demoState (by decide)).2.2.2.2.2.2
     (by decide)⟩

/-- Witness for C3 on the `"abc"` input. -/
theorem trimmer_C3_witness :
    jsParseInt (jsToString (JSVal.str "abc")) = none ∧ clampKeepLastN (.str "abc") = 6 :=
  ⟨by decide, (trimmer_C3_clamp_keepLastN (.str "abc")).1 (by decide)⟩

/-- Witness for C4: first sighting of a fresh key stores `collapsed = true`. -/
theorem trimmer_C4_witness :
    mget (ensureToggle showMyMessageLabel hideMyMessageLabel
      "conversation-turn-9::user-message" [] []).2.1 "conversation-turn-9::user-message" =
      some true :=
  trimmer_C4_collapse_state_lifecycle.1 showMyMessageLabel hideMyMessageLabel
    "conversation-turn-9::user-message" [] [] (by decide)

/-- Witness for C5 on the sample state. -/
theorem trimmer_C5_witness :
    (showAllTurns demoState).turns[0]? = some (setTurnHidden (demoTurn 0) false) :=
  ((trimmer_C5_show_all_command demoSettings demoState .chainOk).2.2.2.2.2.2 0 (demoTurn 0)
    (by decide)).1

/-- Witness for C6: an injected persist failure is answered with the error
reply. -/
theorem trimmer_C6_witness :
    (onMessage (.apply (.num 6) (.bool true) (.bool true) (.bool true)) demoSettings demoState
      (.persistFailed "boom")).2.2 = some (.applyFailed "boom") :=
  congrArg (fun p => p.2.2)
    ((trimmer_C6_apply_command demoSettings demoState (.num 6) (.bool true) (.bool true)
      (.bool true) (.persistFailed "boom")).2.2.1 "boom" rfl)

/-- Witness for C7 on a collapsed sample turn. -/
theorem trimmer_C7_witness :
    mget (handleDocumentClick [demoCollapsedTurn] [] demoClick).2
      (messageKeyOf demoCollapsedTurn 0) = some false :=
  (trimmer_C7_escape_hatch [demoCollapsedTurn] [] demoClick 0 demoCollapsedTurn
    { collapsed := true }
    { key := "conversation-turn-0::user-message", ariaExpanded := some false,
      label := "Show my message", adjacent := true } []
    (by decide) (by decide) (by decide) (by decide) (by decide) (by decide) (by decide)
    (by decide)).1

/-- Witness for C8 on the sample state. -/
theorem trimmer_C8_witness : (demoTurn 0).msgToggles = [] :=
  ((trimmer_C8_disable_cleanup demoState.turns []).2.2.2.2.1 0 (demoTurn 0) (by decide)).1

/-- Witness for C9 on the sample document. -/
theorem trimmer_C9_witness :
    ({ isHtmlElement := true, inThreadRoot := true } : LocElem) ∈
      demoLocatorDoc.primaryMatches :=
  (trimmer_C9_turn_locator demoLocatorDoc).1 (by decide)
    { isHtmlElement := true, inThreadRoot := true } (by decide)

/-- Witness for C10 on the sample state after a show-all pass. -/
theorem trimmer_C10_witness :
    (setTurnHidden (demoTurn 0) false).hiddenClass =
      (setTurnHidden (demoTurn 0) false).hiddenAttr :=
  trimmer_C10_hidden_markers_agree.2.2 demoState (setTurnHidden (demoTurn 0) false) (by decide)
